import Mathlib

/-!
FreeSurround DSP plugin (freesurround.cpp): parameter set, channel remapping, pipeline.

A shallow embedding of `freesurround_params`, `freesurround_dsp` and the layout tables of
`CConfigDialog`, followed by the properties established about them.

Conventions of the embedding
* a C++ `float` is held as its IEEE-754 single precision bit pattern (`float32`), which is
  what the binary archive stores and what the remapping loop copies;
* `unsigned` values are natural numbers; a reduction modulo `2 ^ 32` is written where the
  source can wrap;
* an unchecked array access outside its buffer has no defined behaviour; the operations
  that can reach one return an `Option`, `none` standing for "not defined";
* collaborators declared outside `freesurround.cpp` (the decoder, the archive, the host
  chunk API, the stream chunker) are parameters or are modelled, and say so.
-/

namespace FreeSurround

/-- IEEE-754 single precision value, held as its 32-bit pattern. -/
abbrev float32 := Nat

/-- The logical speaker positions named in `freesurround.cpp` (enum `channel_id` of
`freesurround_decoder.h`). -/
inductive channel_id
  | ci_front_left
  | ci_front_center_left
  | ci_front_center
  | ci_front_center_right
  | ci_front_right
  | ci_side_front_left
  | ci_side_front_right
  | ci_side_center_left
  | ci_side_center_right
  | ci_side_back_left
  | ci_side_back_right
  | ci_back_left
  | ci_back_center_left
  | ci_back_center
  | ci_back_center_right
  | ci_back_right
  | ci_lfe
  deriving DecidableEq, Repr, Fintype

/-- The surround layouts named in `freesurround.cpp` (enum `channel_setup` of
`freesurround_decoder.h`).  A C++ enum object can hold a value that is none of the named
enumerators (the dialog's `switch` has a `default:` branch for it, and a preset blob can
carry one); `cs_unlisted v` stands for such a value. -/
inductive channel_setup
  | cs_stereo
  | cs_3stereo
  | cs_5stereo
  | cs_4point1
  | cs_5point1
  | cs_6point1
  | cs_7point1
  | cs_7point1_panorama
  | cs_7point1_tricenter
  | cs_8point1
  | cs_9point1_densepanorama
  | cs_9point1_wrap
  | cs_11point1_densewrap
  | cs_13point1_totalwrap
  | cs_16point1
  | cs_legacy
  | cs_unlisted (v : Nat)
  deriving DecidableEq, Repr

open channel_id channel_setup

/-- The two static queries of `freesurround_decoder` used by the parameter set.  They are
declared in `freesurround_decoder.h`; here they are parameters. -/
structure decoder_layout where
  num_channels : channel_setup → Nat
  channel_at : channel_setup → Nat → channel_id

namespace audio_chunk

/-- Modelled from the spec: the host channel flags of `audio_chunk` (foobar2000 SDK, not part
of the sources), "one bit per physical output channel slot"; the bit positions are those of
the SDK header. -/
def channel_front_left : Nat := 1 <<< 0

/-- Modelled from the spec: host flag, bit 1. -/
def channel_front_right : Nat := 1 <<< 1

/-- Modelled from the spec: host flag, bit 2. -/
def channel_front_center : Nat := 1 <<< 2

/-- Modelled from the spec: host flag, bit 3. -/
def channel_lfe : Nat := 1 <<< 3

/-- Modelled from the spec: host flag, bit 4. -/
def channel_back_left : Nat := 1 <<< 4

/-- Modelled from the spec: host flag, bit 5. -/
def channel_back_right : Nat := 1 <<< 5

/-- Modelled from the spec: host flag, bit 6. -/
def channel_front_center_left : Nat := 1 <<< 6

/-- Modelled from the spec: host flag, bit 7. -/
def channel_front_center_right : Nat := 1 <<< 7

/-- Modelled from the spec: host flag, bit 8. -/
def channel_back_center : Nat := 1 <<< 8

/-- Modelled from the spec: host flag, bit 9. -/
def channel_side_left : Nat := 1 <<< 9

/-- Modelled from the spec: host flag, bit 10. -/
def channel_side_right : Nat := 1 <<< 10

/-- Modelled from the spec: host flag, bit 11 (not used by the alias table). -/
def channel_top_center : Nat := 1 <<< 11

/-- Modelled from the spec: host flag, bit 12. -/
def channel_top_front_left : Nat := 1 <<< 12

/-- Modelled from the spec: host flag, bit 13. -/
def channel_top_front_center : Nat := 1 <<< 13

/-- Modelled from the spec: host flag, bit 14. -/
def channel_top_front_right : Nat := 1 <<< 14

/-- Modelled from the spec: host flag, bit 15. -/
def channel_top_back_left : Nat := 1 <<< 15

/-- Modelled from the spec: host flag, bit 16. -/
def channel_top_back_center : Nat := 1 <<< 16

/-- Modelled from the spec: host flag, bit 17. -/
def channel_top_back_right : Nat := 1 <<< 17

end audio_chunk

/-- The user-configurable parameters of the DSP (`struct freesurround_params`). -/
structure freesurround_params where
  center_image : float32
  shift : float32
  depth : float32
  circular_wrap : float32
  focus : float32
  front_sep : float32
  rear_sep : float32
  bass_lo : float32
  bass_hi : float32
  use_lfe : Bool
  channels_fs : channel_setup
  chanmap : List Nat
  deriving DecidableEq, Repr

/-- The entries inserted into the `std::map<channel_id,unsigned> fs2fb` of
`set_channels_fs`, in insertion order. -/
def fs2fb : List (channel_id × Nat) :=
  [ (ci_front_left, audio_chunk.channel_front_left),
    (ci_front_center_left, audio_chunk.channel_front_center_left),
    (ci_front_center, audio_chunk.channel_front_center),
    (ci_front_center_right, audio_chunk.channel_front_center_right),
    (ci_front_right, audio_chunk.channel_front_right),
    (ci_side_front_left, audio_chunk.channel_top_front_left),
    (ci_side_front_right, audio_chunk.channel_top_front_right),
    (ci_side_center_left, audio_chunk.channel_side_left),
    (ci_side_center_right, audio_chunk.channel_side_right),
    (ci_side_back_left, audio_chunk.channel_top_back_left),
    (ci_side_back_right, audio_chunk.channel_top_back_right),
    (ci_back_left, audio_chunk.channel_back_left),
    (ci_back_center_left, audio_chunk.channel_top_front_center),
    (ci_back_center, audio_chunk.channel_back_center),
    (ci_back_center_right, audio_chunk.channel_top_back_center),
    (ci_back_right, audio_chunk.channel_back_right),
    (ci_lfe, audio_chunk.channel_lfe) ]

/-- The lookup `fs2fb[k]`: `std::map::operator[]` yields the stored value, or a
value-initialised `0` for a key that was never inserted. -/
def fs2fb_at (k : channel_id) : Nat :=
  (fs2fb.lookup k).getD 0

/-- Assign a channel setup and recompute the derived table
(`freesurround_params::set_channels_fs`): `channels_fs = setup; chanmap.clear();` and then
one `chanmap += fs2fb[channel_at(channels_fs,i)]` per `i < num_channels(channels_fs)`. -/
def set_channels_fs (dec : decoder_layout) (p : freesurround_params) (setup : channel_setup) :
    freesurround_params :=
  let p1 : freesurround_params := { p with channels_fs := setup }
  let p2 : freesurround_params := { p1 with chanmap := [] }
  (List.range (dec.num_channels p2.channels_fs)).foldl
    (fun q i => { q with chanmap := q.chanmap ++ [fs2fb_at (dec.channel_at q.channels_fs i)] })
    p2

/-- The fb2k version of the channel setup code (`freesurround_params::channels_fb`):
`res |= chanmap[i]` over the whole table, starting from `0`. -/
def channels_fb (p : freesurround_params) : Nat :=
  p.chanmap.foldl (fun res x => res ||| x) 0

/-- Number of set bits among the 32 bits of an `unsigned`. -/
def popcount (n : Nat) : Nat :=
  ((List.range 32).filter (fun k => n.testBit k)).length

/-- Frames per processed block (`enum { chunk_size = 32768 }`). -/
def chunk_size : Nat := 32768

/-- The `float` nearest to the literal `0.7` (bit pattern `0x3F333333`). -/
def f32_0_7 : float32 := 0x3F333333

/-- The `float` `0` (bit pattern `0x00000000`). -/
def f32_0 : float32 := 0x00000000

/-- The `float` `1` (bit pattern `0x3F800000`). -/
def f32_1 : float32 := 0x3F800000

/-- The `float` `90` (bit pattern `0x42B40000`). -/
def f32_90 : float32 := 0x42B40000

/-- The `float` `40` (bit pattern `0x42200000`). -/
def f32_40 : float32 := 0x42200000

/-- Construct with defaults (`freesurround_params::freesurround_params()`): the member
initialisers, then `set_channels_fs(cs_5point1)`.  `channels_fs` is not initialised before
that call; the placeholder it holds here is overwritten by it. -/
def freesurround_params_default (dec : decoder_layout) : freesurround_params :=
  set_channels_fs dec
    { center_image := f32_0_7, shift := f32_0, depth := f32_1, circular_wrap := f32_90,
      focus := f32_0, front_sep := f32_1, rear_sep := f32_1, bass_lo := f32_40,
      bass_hi := f32_90, use_lfe := false, channels_fs := cs_unlisted 0, chanmap := [] }
    cs_5point1

/-- The primitive operations of the boost binary archives that `serialize` relies on, over a
blob of bytes.  Boost is not part of the sources, so the operations are parameters: what the
archive constructors write and check (`put_header`, `get_header`, which also stand for the
class information preceding the object) and how each field type is stored and read back.  A
`get_` operation returns `none` where the archive throws. -/
structure binary_archive where
  put_header : List Nat
  put_float : float32 → List Nat
  put_setup : channel_setup → List Nat
  put_vector : List Nat → List Nat
  put_bool : Bool → List Nat
  get_header : List Nat → Option (List Nat)
  get_float : List Nat → Option (float32 × List Nat)
  get_setup : List Nat → Option (channel_setup × List Nat)
  get_vector : List Nat → Option (List Nat × List Nat)
  get_bool : List Nat → Option (Bool × List Nat)

/-- One `ar & field` on an output archive: the stored form of the field is appended. -/
def save_field {α : Type} (put : α → List Nat) (v : α) (s : List Nat) : List Nat :=
  s ++ put v

/-- The member `serialize` instantiated with an output archive:
`ar & center_image & shift & depth & circular_wrap & focus & front_sep & rear_sep &
channels_fs & chanmap & bass_lo & bass_hi & use_lfe`. -/
def serialize_save (ar : binary_archive) (p : freesurround_params) (s : List Nat) : List Nat :=
  save_field ar.put_bool p.use_lfe
  (save_field ar.put_float p.bass_hi
  (save_field ar.put_float p.bass_lo
  (save_field ar.put_vector p.chanmap
  (save_field ar.put_setup p.channels_fs
  (save_field ar.put_float p.rear_sep
  (save_field ar.put_float p.front_sep
  (save_field ar.put_float p.focus
  (save_field ar.put_float p.circular_wrap
  (save_field ar.put_float p.depth
  (save_field ar.put_float p.shift
  (save_field ar.put_float p.center_image s)))))))))))

/-- Convert to a DSP preset (`freesurround_params::to_preset`): the bytes written by
`binary_oarchive(s) << *this`.  (The owner GUID attached to the preset is not modelled.) -/
def to_preset (ar : binary_archive) (p : freesurround_params) : List Nat :=
  serialize_save ar p ar.put_header

/-- One `ar & field` on an input archive, acting on the object being filled and on the
stream.  The stream component is `none` once an exception is propagating; a failed read
leaves the object as the earlier reads made it. -/
def load_field {α : Type} (get : List Nat → Option (α × List Nat))
    (set : freesurround_params → α → freesurround_params)
    (st : freesurround_params × Option (List Nat)) : freesurround_params × Option (List Nat) :=
  match st.2 with
  | none => st
  | some s =>
    match get s with
    | none => (st.1, none)
    | some (v, s1) => (set st.1 v, some s1)

/-- The member `serialize` instantiated with an input archive: the twelve fields are read
into the object itself, in the order of the field list. -/
def serialize_load (ar : binary_archive) (st : freesurround_params × Option (List Nat)) :
    freesurround_params × Option (List Nat) :=
  load_field ar.get_bool (fun p v => { p with use_lfe := v })
  (load_field ar.get_float (fun p v => { p with bass_hi := v })
  (load_field ar.get_float (fun p v => { p with bass_lo := v })
  (load_field ar.get_vector (fun p v => { p with chanmap := v })
  (load_field ar.get_setup (fun p v => { p with channels_fs := v })
  (load_field ar.get_float (fun p v => { p with rear_sep := v })
  (load_field ar.get_float (fun p v => { p with front_sep := v })
  (load_field ar.get_float (fun p v => { p with focus := v })
  (load_field ar.get_float (fun p v => { p with circular_wrap := v })
  (load_field ar.get_float (fun p v => { p with depth := v })
  (load_field ar.get_float (fun p v => { p with shift := v })
  (load_field ar.get_float (fun p v => { p with center_image := v }) st)))))))))))

/-- The `try` block of the preset constructor: the archive constructor checks the header,
then `>> *this` runs `serialize` on the object under construction.  That object starts with
indeterminate scalar members (`garbage`) and an empty `chanmap`. -/
def try_load (ar : binary_archive) (garbage : freesurround_params) (blob : List Nat) :
    freesurround_params × Option (List Nat) :=
  let this0 : freesurround_params := { garbage with chanmap := [] }
  match ar.get_header blob with
  | none => (this0, none)
  | some s => serialize_load ar (this0, some s)

/-- Construct from a DSP preset (`freesurround_params::freesurround_params(const dsp_preset&)`):
the object as loaded when nothing was thrown, and `*this = freesurround_params()` in the
`catch(...)` handler otherwise.  (The console warning of the handler is not modelled.) -/
def freesurround_params_of_preset (ar : binary_archive) (dec : decoder_layout)
    (garbage : freesurround_params) (blob : List Nat) : freesurround_params :=
  match try_load ar garbage blob with
  | (this1, some _) => this1
  | (_, none) => freesurround_params_default dec

/-- An audio chunk of the host: channel count, channel configuration code, sample rate,
number of frames, and the interleaved samples (`get_data_length()` of them). -/
structure audio_chunk where
  channels : Nat
  channel_config : Nat
  srate : Nat
  sample_count : Nat
  data : List float32

/-- Modelled from the spec: `audio_chunk::g_channel_index_from_flag` of the host SDK (not part
of the sources), "a function mapping (bitmask, single flag) to the integer slot index within
that bitmask's channel ordering".  The 32 bit positions are walked upwards; the answer is the
number of set bits of `p_config` below the lowest set bit of `p_flag`, and the all-ones value
when `p_flag` has no bit set. -/
def index_from_flag_walk (p_config p_flag : Nat) : Nat → Nat → Nat → Nat
  | 0, _, _ => 2 ^ 32 - 1
  | n + 1, walk, index =>
    if p_flag.testBit walk then index
    else index_from_flag_walk p_config p_flag n (walk + 1)
      (if p_config.testBit walk then index + 1 else index)

/-- Modelled from the spec: the host's slot index of `p_flag` within `p_config` (see
`index_from_flag_walk`). -/
def g_channel_index_from_flag (p_config p_flag : Nat) : Nat :=
  index_from_flag_walk p_config p_flag 32 0 0

/-- The output buffer while it is being filled, together with the record of the indices
assigned so far (oldest first).  The record is ghost state: the source keeps none. -/
structure remap_state where
  dst : List float32
  written : List Nat

/-- The inner loop of `process_chunk`:
`for (s = 0; s < num*chunk_size; s += num) dst[idx+s] = src[c+s];` entered at `s`, where
`src` is the block returned by the decoder and `dst` the data of the output chunk.  Neither
access is checked in the source: a store at an index outside `dst` or a read at an offset
outside `src` has no defined behaviour, and the result is then `none`.  `idx + s` is an
`unsigned` sum and is reduced modulo `2 ^ 32`; `s`, `c + s` and `num*chunk_size` stay below
`2 ^ 32` for every table of fewer than `2 ^ 17` entries and are left unreduced. -/
def copy_channel (src : List float32) (num idx c : Nat) (s : Nat) (st : remap_state) :
    Option remap_state :=
  if s < num * chunk_size then
    if (idx + s) % 2 ^ 32 < st.dst.length ∧ c + s < src.length then
      copy_channel src num idx c (s + num)
        { dst := st.dst.set ((idx + s) % 2 ^ 32) (src.getD (c + s) 0),
          written := st.written ++ [(idx + s) % 2 ^ 32] }
    else none
  else some st
termination_by num * chunk_size - s
decreasing_by
  rename_i h _
  have hn : 0 < num := by
    rcases Nat.eq_zero_or_pos num with h0 | h0
    · subst h0
      simp at h
    · exact h0
  omega

/-- The outer loop of `process_chunk`: for every `c < num`, with `num = chanmap.size()`,
the slot `idx = g_channel_index_from_flag(chan_code, chanmap[c])` is computed and the inner
loop is run; once an access has left its buffer nothing further is defined. -/
def remap_channels (chanmap : List Nat) (chan_code : Nat) (src : List float32)
    (st : remap_state) : Option remap_state :=
  (List.range chanmap.length).foldl
    (fun acc c =>
      match acc with
      | some a =>
        copy_channel src chanmap.length
          (g_channel_index_from_flag chan_code (chanmap.getD c 0)) c 0 a
      | none => none)
    (some st)

/-- The operations of `freesurround_decoder` used by the plugin, over an abstract decoder
state.  The decoder is declared in `freesurround_decoder.h`; its operations are parameters.
The cut-off setters receive `bass_lo/(srate/2.0)` resp. `bass_hi/(srate/2.0)`; the quotient is
floating point and is passed here as the pair of its operands.  `decode` returns the new
decoder state and the decoded block, a buffer of the size the decoder chose when it was
constructed for its channel setup; the plugin reads it through the returned pointer. -/
structure decoder_ops (δ : Type) where
  construct : channel_setup → δ
  circular_wrap : δ → float32 → δ
  shift : δ → float32 → δ
  depth : δ → float32 → δ
  focus : δ → float32 → δ
  center_image : δ → float32 → δ
  front_separation : δ → float32 → δ
  rear_separation : δ → float32 → δ
  bass_redirection : δ → Bool → δ
  low_cutoff : δ → float32 → Nat → δ
  high_cutoff : δ → float32 → Nat → δ
  decode : δ → List float32 → δ × List float32
  buffered : δ → Nat
  flush : δ → δ

/-- The plugin instance (`class freesurround_dsp`): its private members, and the chunks
handed to the host through `insert_chunk()` so far (oldest first).  `rechunker` holds the
samples the stream chunker retains. -/
structure freesurround_dsp (δ : Type) where
  params : freesurround_params
  rechunker : List float32
  decoder : δ
  srate : Nat
  chan_code : Nat
  emitted : List audio_chunk

/-- Construct the plugin instance from a preset (`freesurround_dsp::freesurround_dsp`). -/
def freesurround_dsp_of_preset {δ : Type} (ar : binary_archive) (dec : decoder_layout)
    (D : decoder_ops δ) (garbage : freesurround_params) (blob : List Nat) :
    freesurround_dsp δ :=
  let params := freesurround_params_of_preset ar dec garbage blob
  let srate := 44100
  let d0 := D.construct params.channels_fs
  let d1 := D.circular_wrap d0 params.circular_wrap
  let d2 := D.shift d1 params.shift
  let d3 := D.depth d2 params.depth
  let d4 := D.focus d3 params.focus
  let d5 := D.center_image d4 params.center_image
  let d6 := D.front_separation d5 params.front_sep
  let d7 := D.rear_separation d6 params.rear_sep
  let d8 := D.bass_redirection d7 params.use_lfe
  let d9 := D.low_cutoff d8 params.bass_lo srate
  let d10 := D.high_cutoff d9 params.bass_hi srate
  { params := params, rechunker := [], decoder := d10, srate := srate,
    chan_code := channels_fb params, emitted := [] }

/-- Process and emit a chunk (`freesurround_dsp::process_chunk`): a new output chunk with
`chanmap.size()` channels, configuration `chan_code`, the current sample rate and
`chunk_size` frames of silence is inserted; the cut-offs are set; the block is decoded; the
decoded samples are copied into the chunk by `remap_channels`.  The result is `none` when
the copy leaves the output buffer or the decoded block.  The second component is the record
of the indices assigned in the output buffer. -/
def process_chunk_traced {δ : Type} (D : decoder_ops δ) (st : freesurround_dsp δ)
    (stereo : List float32) : Option (freesurround_dsp δ × List Nat) :=
  let num := st.params.chanmap.length
  let dst0 : List float32 := List.replicate (num * chunk_size) 0
  let d1 := D.low_cutoff st.decoder st.params.bass_lo st.srate
  let d2 := D.high_cutoff d1 st.params.bass_hi st.srate
  let r := D.decode d2 stereo
  match remap_channels st.params.chanmap st.chan_code r.2 { dst := dst0, written := [] } with
  | none => none
  | some fin =>
    let chunk : audio_chunk :=
      { channels := num, channel_config := st.chan_code, srate := st.srate,
        sample_count := chunk_size, data := fin.dst }
    some ({ st with decoder := r.1, emitted := st.emitted ++ [chunk] }, fin.written)

/-- The plugin state after `freesurround_dsp::process_chunk`, when it is defined. -/
def process_chunk {δ : Type} (D : decoder_ops δ) (st : freesurround_dsp δ)
    (stereo : List float32) : Option (freesurround_dsp δ) :=
  match process_chunk_traced D st stereo with
  | none => none
  | some r => some r.1

/-- Latency in seconds (`freesurround_dsp::get_latency`):
`srate ? (rechunker.buffered()/2 + decoder.buffered()) / srate : 0`.  The operands are
`unsigned`, so both divisions are integer divisions; the resulting integer is converted to
the returned `double`, which represents it exactly. -/
def get_latency {δ : Type} (D : decoder_ops δ) (st : freesurround_dsp δ) : ℚ :=
  if st.srate ≠ 0 then
    (((st.rechunker.length / 2 + D.buffered st.decoder) % 2 ^ 32 / st.srate : Nat) : ℚ)
  else 0

/-- Flush (`freesurround_dsp::flush`): `rechunker.flush(); decoder.flush();`. -/
def flush {δ : Type} (D : decoder_ops δ) (st : freesurround_dsp δ) : freesurround_dsp δ :=
  { st with rechunker := [], decoder := D.flush st.decoder }

/-- The `switch (s.channels_fs)` of the `CConfigDialog` constructor, which computes
`combo_config`. -/
def combo_config_of : channel_setup → Nat
  | cs_stereo => 0
  | cs_3stereo => 1
  | cs_4point1 => 2
  | cs_5point1 => 3
  | cs_5stereo => 4
  | cs_legacy => 5
  | cs_6point1 => 6
  | cs_7point1 => 7
  | cs_7point1_panorama => 8
  | cs_7point1_tricenter => 9
  | cs_8point1 => 10
  | cs_9point1_wrap => 11
  | cs_9point1_densepanorama => 12
  | cs_11point1_densewrap => 13
  | cs_13point1_totalwrap => 14
  | cs_16point1 => 15
  | cs_unlisted _ => 0

/-- The array `remap[]` of `CConfigDialog::DoDataExchange`. -/
def remap : List channel_setup :=
  [cs_stereo, cs_3stereo, cs_4point1, cs_5point1, cs_5stereo, cs_legacy, cs_6point1, cs_7point1,
   cs_7point1_panorama, cs_7point1_tricenter, cs_8point1, cs_9point1_wrap,
   cs_9point1_densepanorama, cs_11point1_densewrap, cs_13point1_totalwrap, cs_16point1]

/-- The effect of `CConfigDialog::DoDataExchange` on the layout of the dialog's working copy:
`s.set_channels_fs(remap[combo_config])`.  An index outside the array has no defined
element; the working copy is then returned as it is. -/
def DoDataExchange_layout (dec : decoder_layout) (s : freesurround_params)
    (combo_config : Nat) : freesurround_params :=
  match remap[combo_config]? with
  | some setup => set_channels_fs dec s setup
  | none => s

/-- Opening the dialog on a parameter set and applying it with the combo box untouched:
the constructor copies the set and computes `combo_config`, `DoDataExchange` writes the
layout back. -/
def dialog_apply_unchanged (dec : decoder_layout) (p : freesurround_params) :
    freesurround_params :=
  DoDataExchange_layout dec p (combo_config_of p.channels_fs)

/-- The round-trip laws of an archive: what an output archive wrote, an input archive reads
back, leaving the rest of the stream. -/
structure lawful_archive (ar : binary_archive) : Prop where
  header : ∀ rest, ar.get_header (ar.put_header ++ rest) = some rest
  float : ∀ v rest, ar.get_float (ar.put_float v ++ rest) = some (v, rest)
  setup : ∀ v rest, ar.get_setup (ar.put_setup v ++ rest) = some (v, rest)
  vector : ∀ v rest, ar.get_vector (ar.put_vector v ++ rest) = some (v, rest)
  bool : ∀ v rest, ar.get_bool (ar.put_bool v ++ rest) = some (v, rest)

/-- Code of a layout in `word_archive`: the sixteen named layouts in the order of the
dialog's list, then the unlisted values. -/
def setup_code : channel_setup → Nat
  | cs_unlisted v => 16 + v
  | s => combo_config_of s

/-- Inverse of `setup_code`. -/
def setup_of_code (n : Nat) : channel_setup :=
  match remap[n]? with
  | some s => s
  | none => cs_unlisted (n - 16)

/-- Modelled from the spec: a concrete archive used to instantiate the statements, "a
self-describing versioned blob" with the "version identifier embedded" and read first.  The
blob is a sequence of words: one version word (`1`), one word per `float` (its bit pattern),
one per layout, a length word followed by the entries for the vector, and `0` or `1` for a
`bool`.  Reading past the end, a different version word, or a `bool` word other than `0`
and `1` throws. -/
def word_archive : binary_archive where
  put_header := [1]
  put_float := fun v => [v]
  put_setup := fun s => [setup_code s]
  put_vector := fun l => l.length :: l
  put_bool := fun b => [if b then 1 else 0]
  get_header := fun s =>
    match s with
    | 1 :: rest => some rest
    | _ => none
  get_float := fun s =>
    match s with
    | v :: rest => some (v, rest)
    | [] => none
  get_setup := fun s =>
    match s with
    | v :: rest => some (setup_of_code v, rest)
    | [] => none
  get_vector := fun s =>
    match s with
    | n :: rest => if n ≤ rest.length then some (rest.take n, rest.drop n) else none
    | [] => none
  get_bool := fun s =>
    match s with
    | 0 :: rest => some (false, rest)
    | 1 :: rest => some (true, rest)
    | _ => none

/-- A channel table used to instantiate the statements (the decoder's own table is declared
in `freesurround_decoder.h`): each layout lists its speakers from front left around to back
right, with the LFE last. -/
def demo_channels : channel_setup → List channel_id
  | cs_stereo => [ci_front_left, ci_front_right, ci_lfe]
  | cs_3stereo => [ci_front_left, ci_front_center, ci_front_right, ci_lfe]
  | cs_5stereo =>
    [ci_front_left, ci_front_center_left, ci_front_center, ci_front_center_right,
     ci_front_right, ci_lfe]
  | cs_4point1 => [ci_front_left, ci_front_right, ci_back_left, ci_back_right, ci_lfe]
  | cs_5point1 =>
    [ci_front_left, ci_front_center, ci_front_right, ci_back_left, ci_back_right, ci_lfe]
  | cs_6point1 =>
    [ci_front_left, ci_front_center, ci_front_right, ci_side_center_left,
     ci_side_center_right, ci_back_center, ci_lfe]
  | cs_7point1 =>
    [ci_front_left, ci_front_center, ci_front_right, ci_side_center_left,
     ci_side_center_right, ci_back_left, ci_back_right, ci_lfe]
  | cs_7point1_panorama =>
    [ci_front_left, ci_front_center_left, ci_front_center, ci_front_center_right,
     ci_front_right, ci_side_center_left, ci_side_center_right, ci_lfe]
  | cs_7point1_tricenter =>
    [ci_front_left, ci_front_center_left, ci_front_center, ci_front_center_right,
     ci_front_right, ci_back_left, ci_back_right, ci_lfe]
  | cs_8point1 =>
    [ci_front_left, ci_front_center, ci_front_right, ci_side_center_left,
     ci_side_center_right, ci_back_left, ci_back_center, ci_back_right, ci_lfe]
  | cs_9point1_densepanorama =>
    [ci_front_left, ci_front_center_left, ci_front_center, ci_front_center_right,
     ci_front_right, ci_side_front_left, ci_side_front_right, ci_side_center_left,
     ci_side_center_right, ci_lfe]
  | cs_9point1_wrap =>
    [ci_front_left, ci_front_center_left, ci_front_center, ci_front_center_right,
     ci_front_right, ci_side_center_left, ci_side_center_right, ci_back_left,
     ci_back_right, ci_lfe]
  | cs_11point1_densewrap =>
    [ci_front_left, ci_front_center_left, ci_front_center, ci_front_center_right,
     ci_front_right, ci_side_front_left, ci_side_front_right, ci_side_center_left,
     ci_side_center_right, ci_side_back_left, ci_side_back_right, ci_lfe]
  | cs_13point1_totalwrap =>
    [ci_front_left, ci_front_center_left, ci_front_center, ci_front_center_right,
     ci_front_right, ci_side_front_left, ci_side_front_right, ci_side_center_left,
     ci_side_center_right, ci_side_back_left, ci_side_back_right, ci_back_left,
     ci_back_right, ci_lfe]
  | cs_16point1 =>
    [ci_front_left, ci_front_center_left, ci_front_center, ci_front_center_right,
     ci_front_right, ci_side_front_left, ci_side_front_right, ci_side_center_left,
     ci_side_center_right, ci_side_back_left, ci_side_back_right, ci_back_left,
     ci_back_center_left, ci_back_center, ci_back_center_right, ci_back_right, ci_lfe]
  | cs_legacy =>
    [ci_front_left, ci_front_center, ci_front_right, ci_back_left, ci_back_right, ci_lfe]
  | cs_unlisted _ => []

/-- The layout queries answered from `demo_channels`. -/
def demo_layout : decoder_layout where
  num_channels := fun s => (demo_channels s).length
  channel_at := fun s i => (demo_channels s).getD i ci_front_left

/-- A decoder used to instantiate the statements: its state is the number of frames it
holds, the setters leave it alone, and every decoded block has `num * chunk_size` samples
and carries the constant `c + 1` in channel `c` of `num` interleaved channels. -/
def constant_decoder (num : Nat) : decoder_ops Nat where
  construct := fun _ => 0
  circular_wrap := fun d _ => d
  shift := fun d _ => d
  depth := fun d _ => d
  focus := fun d _ => d
  center_image := fun d _ => d
  front_separation := fun d _ => d
  rear_separation := fun d _ => d
  bass_redirection := fun d _ => d
  low_cutoff := fun d _ _ => d
  high_cutoff := fun d _ _ => d
  decode := fun d _ => (d, (List.range (num * chunk_size)).map (fun i => i % num + 1))
  buffered := fun d => d
  flush := fun _ => 0

/-- A parameter set standing for the indeterminate members of an object under
construction. -/
def garbage_params : freesurround_params :=
  { center_image := 7, shift := 7, depth := 7, circular_wrap := 7, focus := 7, front_sep := 7,
    rear_sep := 7, bass_lo := 7, bass_hi := 7, use_lfe := true, channels_fs := cs_unlisted 7,
    chanmap := [] }

/-- The assignments `dst[i] = src[j]` of one run of the inner loop of `process_chunk`, as
pairs `(i, j)` in execution order: `k` iterations starting with frame `f0`. -/
def chan_writes (num idx c k f0 : Nat) : List (Nat × Nat) :=
  (List.range k).map (fun j => ((idx + (f0 + j) * num) % 2 ^ 32, c + (f0 + j) * num))

/-- Carrying out a sequence of assignments `dst[i] = src[j]` on the output buffer. -/
def apply_writes (src : Nat → float32) (ws : List (Nat × Nat)) (st : remap_state) :
    remap_state :=
  ws.foldl (fun acc w => { dst := acc.dst.set w.1 (src w.2), written := acc.written ++ [w.1] })
    st

/-- All assignments of the remapping loops of `process_chunk`, in execution order, when
channel `c` is copied to the host slot `slot c`. -/
def all_writes (num : Nat) (slot : Nat → Nat) : List Nat → List (Nat × Nat)
  | [] => []
  | c :: cs => chan_writes num (slot c) c chunk_size 0 ++ all_writes num slot cs

/-- Number of the bit positions in `ks` that lie below `k`. -/
def rank (ks : List Nat) (k : Nat) : Nat :=
  ((List.range k).filter (fun j => decide (j ∈ ks))).length

/-- A preset blob in `word_archive` form that stores the stereo layout together with the
table `[1, 1]`, in which the front-left flag occurs twice. -/
def duplicate_flags_blob : List Nat :=
  [1, 1060320051, 0, 1065353216, 1119092736, 0, 1065353216, 1065353216, 0, 2, 1, 1,
   1109393408, 1119092736, 0]

/-- The plugin instance constructed from `duplicate_flags_blob`, with a decoder whose two
output channels carry the constants `1` and `2`. -/
def duplicate_flags_dsp : freesurround_dsp Nat :=
  freesurround_dsp_of_preset word_archive demo_layout (constant_decoder 2) garbage_params
    duplicate_flags_blob

/-- A plugin instance with the default parameters of the sample channel table (5.1), as the
constructor leaves it, with a decoder of six constant channels. -/
def default_dsp : freesurround_dsp Nat :=
  freesurround_dsp_of_preset word_archive demo_layout (constant_decoder 6) garbage_params
    (to_preset word_archive (freesurround_params_default demo_layout))

/-- The alias table of the specification, written out by name. -/
def alias_table : channel_id → Nat
  | ci_front_left => audio_chunk.channel_front_left
  | ci_front_center_left => audio_chunk.channel_front_center_left
  | ci_front_center => audio_chunk.channel_front_center
  | ci_front_center_right => audio_chunk.channel_front_center_right
  | ci_front_right => audio_chunk.channel_front_right
  | ci_back_left => audio_chunk.channel_back_left
  | ci_back_right => audio_chunk.channel_back_right
  | ci_back_center => audio_chunk.channel_back_center
  | ci_lfe => audio_chunk.channel_lfe
  | ci_side_front_left => audio_chunk.channel_top_front_left
  | ci_side_front_right => audio_chunk.channel_top_front_right
  | ci_side_center_left => audio_chunk.channel_side_left
  | ci_side_center_right => audio_chunk.channel_side_right
  | ci_side_back_left => audio_chunk.channel_top_back_left
  | ci_side_back_right => audio_chunk.channel_top_back_right
  | ci_back_center_left => audio_chunk.channel_top_front_center
  | ci_back_center_right => audio_chunk.channel_top_back_center

/-- Bit position of the host flag a logical channel is aliased to. -/
def alias_bit : channel_id → Nat
  | ci_front_left => 0
  | ci_front_center_left => 6
  | ci_front_center => 2
  | ci_front_center_right => 7
  | ci_front_right => 1
  | ci_back_left => 4
  | ci_back_right => 5
  | ci_back_center => 8
  | ci_lfe => 3
  | ci_side_front_left => 12
  | ci_side_front_right => 14
  | ci_side_center_left => 9
  | ci_side_center_right => 10
  | ci_side_back_left => 15
  | ci_side_back_right => 17
  | ci_back_center_left => 13
  | ci_back_center_right => 16


/-! ## Properties -/

theorem fs2fb_at_eq_alias (k : channel_id) : fs2fb_at k = alias_table k := by
  cases k <;> rfl

theorem alias_eq_two_pow (k : channel_id) : alias_table k = 2 ^ alias_bit k := by
  cases k <;> rfl

theorem alias_bit_lt (k : channel_id) : alias_bit k < 32 := by
  cases k <;> decide

theorem alias_bit_injective : Function.Injective alias_bit := by
  intro a b h
  cases a <;> cases b <;> first | rfl | (exact absurd h (by decide))



theorem set_channels_fold (dec : decoder_layout) (l : List Nat) (q : freesurround_params) :
    l.foldl
      (fun q i => { q with chanmap := q.chanmap ++ [fs2fb_at (dec.channel_at q.channels_fs i)] })
      q
    = { q with
        chanmap := q.chanmap ++ l.map (fun i => fs2fb_at (dec.channel_at q.channels_fs i)) } := by
  induction l generalizing q with
  | nil => simp
  | cons a l ih => simp [List.foldl_cons, ih, List.append_assoc]

theorem set_channels_fs_eq (dec : decoder_layout) (p : freesurround_params)
    (setup : channel_setup) :
    set_channels_fs dec p setup
    = { p with
        channels_fs := setup
        chanmap := (List.range (dec.num_channels setup)).map
          (fun i => alias_table (dec.channel_at setup i)) } := by
  unfold set_channels_fs
  rw [set_channels_fold]
  simp only [List.nil_append, fs2fb_at_eq_alias]

theorem testBit_foldl_or (l : List Nat) (a k : Nat) :
    (l.foldl (fun res x => res ||| x) a).testBit k
    = (a.testBit k || l.any (fun x => x.testBit k)) := by
  induction l generalizing a with
  | nil => simp
  | cons x l ih => simp [List.foldl_cons, ih, Nat.testBit_or, Bool.or_assoc]

theorem testBit_or_of_bits (ks : List Nat) (k : Nat) :
    ((ks.map (fun j => 2 ^ j)).foldl (fun res x => res ||| x) 0).testBit k = decide (k ∈ ks) := by
  rw [testBit_foldl_or]
  induction ks with
  | nil => simp
  | cons j ks ih =>
    simp only [List.map_cons, List.any_cons, List.mem_cons, Nat.zero_testBit, Bool.false_or] at ih ⊢
    rw [ih, Nat.testBit_two_pow]
    by_cases h : j = k
    · subst h
      simp
    · have h2 : ¬ k = j := fun e => h e.symm
      simp [h, h2]

theorem filter_range_mem_length (n : Nat) (ks : List Nat) (hnd : ks.Nodup)
    (hlt : ∀ k ∈ ks, k < n) :
    ((List.range n).filter (fun k => decide (k ∈ ks))).length = ks.length := by
  apply List.Perm.length_eq
  apply (List.perm_ext_iff_of_nodup ((List.nodup_range n).filter _) hnd).2
  intro a
  simp only [List.mem_filter, List.mem_range, decide_eq_true_eq]
  constructor
  · exact fun h => h.2
  · exact fun h => ⟨hlt a h, h⟩

theorem popcount_or_of_bits (ks : List Nat) (hnd : ks.Nodup) (hlt : ∀ k ∈ ks, k < 32) :
    popcount ((ks.map (fun j => 2 ^ j)).foldl (fun res x => res ||| x) 0) = ks.length := by
  unfold popcount
  have h : (fun k => ((ks.map (fun j => 2 ^ j)).foldl (fun res x => res ||| x) 0).testBit k)
      = (fun k => decide (k ∈ ks)) := by
    funext k
    exact testBit_or_of_bits ks k
  rw [h]
  exact filter_range_mem_length 32 ks hnd hlt

theorem two_pow_injective : Function.Injective (fun j : Nat => 2 ^ j) :=
  fun _ _ h => Nat.pow_right_injective (le_refl 2) h

/-- C1. After `set_channels_fs(setup)` the parameter set has `channels_fs = setup` and
`chanmap` is, for `i = 0 .. num_channels(setup)-1` in that order, the alias of
`channel_at(setup, i)` under the fixed table; the other fields are kept, and the table does
not depend on the parameter set the call started from. -/
theorem set_channels_fs_alias_table (dec : decoder_layout) (p : freesurround_params)
    (setup : channel_setup) :
    (set_channels_fs dec p setup).channels_fs = setup
    ∧ (set_channels_fs dec p setup).chanmap
        = (List.range (dec.num_channels setup)).map
            (fun i => alias_table (dec.channel_at setup i))
    ∧ (∀ p0 : freesurround_params,
        (set_channels_fs dec p0 setup).chanmap = (set_channels_fs dec p setup).chanmap)
    ∧ set_channels_fs dec p setup
        = { p with
            channels_fs := setup
            chanmap := (List.range (dec.num_channels setup)).map
              (fun i => alias_table (dec.channel_at setup i)) }
    ∧ alias_table ci_front_left = audio_chunk.channel_front_left
    ∧ alias_table ci_front_center_left = audio_chunk.channel_front_center_left
    ∧ alias_table ci_front_center = audio_chunk.channel_front_center
    ∧ alias_table ci_front_center_right = audio_chunk.channel_front_center_right
    ∧ alias_table ci_front_right = audio_chunk.channel_front_right
    ∧ alias_table ci_back_left = audio_chunk.channel_back_left
    ∧ alias_table ci_back_right = audio_chunk.channel_back_right
    ∧ alias_table ci_back_center = audio_chunk.channel_back_center
    ∧ alias_table ci_lfe = audio_chunk.channel_lfe
    ∧ alias_table ci_side_front_left = audio_chunk.channel_top_front_left
    ∧ alias_table ci_side_front_right = audio_chunk.channel_top_front_right
    ∧ alias_table ci_side_center_left = audio_chunk.channel_side_left
    ∧ alias_table ci_side_center_right = audio_chunk.channel_side_right
    ∧ alias_table ci_side_back_left = audio_chunk.channel_top_back_left
    ∧ alias_table ci_side_back_right = audio_chunk.channel_top_back_right
    ∧ alias_table ci_back_center_left = audio_chunk.channel_top_front_center
    ∧ alias_table ci_back_center_right = audio_chunk.channel_top_back_center := by
  refine ⟨?_, ?_, ?_, set_channels_fs_eq dec p setup, rfl, rfl, rfl, rfl, rfl, rfl, rfl, rfl,
    rfl, rfl, rfl, rfl, rfl, rfl, rfl, rfl, rfl⟩
  · rw [set_channels_fs_eq]
  · rw [set_channels_fs_eq]
  · intro p0
    rw [set_channels_fs_eq, set_channels_fs_eq]

theorem chanmap_as_bits (dec : decoder_layout) (p : freesurround_params)
    (setup : channel_setup) :
    (set_channels_fs dec p setup).chanmap
    = (((List.range (dec.num_channels setup)).map (dec.channel_at setup)).map alias_bit).map
        (fun j => 2 ^ j) := by
  rw [set_channels_fs_eq]
  simp only [List.map_map]
  apply List.map_congr_left
  intro i _
  simp [alias_eq_two_pow]

/-- C2. For a setup whose `channel_at` sequence lists pairwise distinct channel ids, after
`set_channels_fs(setup)` the table has `num_channels(setup)` entries, the entries are
pairwise distinct, each is a single-bit (hence non-zero) host flag, and `channels_fb()`, the
bitwise OR of the entries, has exactly `num_channels(setup)` set bits. -/
theorem chanmap_distinct_flags (dec : decoder_layout) (p : freesurround_params)
    (setup : channel_setup)
    (hdistinct : ((List.range (dec.num_channels setup)).map (dec.channel_at setup)).Nodup) :
    (set_channels_fs dec p setup).chanmap.length = dec.num_channels setup
    ∧ (set_channels_fs dec p setup).chanmap.Nodup
    ∧ (∀ x ∈ (set_channels_fs dec p setup).chanmap, x ≠ 0 ∧ ∃ k, k < 32 ∧ x = 1 <<< k)
    ∧ popcount (channels_fb (set_channels_fs dec p setup)) = dec.num_channels setup
    ∧ Function.Injective fs2fb_at := by
  have hbits : (((List.range (dec.num_channels setup)).map (dec.channel_at setup)).map
      alias_bit).Nodup := hdistinct.map alias_bit_injective
  refine ⟨?_, ?_, ?_, ?_, ?_⟩
  rotate_right
  · intro a b hab
    rw [fs2fb_at_eq_alias, fs2fb_at_eq_alias, alias_eq_two_pow, alias_eq_two_pow] at hab
    exact alias_bit_injective (two_pow_injective hab)
  · rw [set_channels_fs_eq]
    simp
  · rw [chanmap_as_bits]
    exact hbits.map two_pow_injective
  · intro x hx
    rw [set_channels_fs_eq] at hx
    simp only [List.mem_map, List.mem_range] at hx
    obtain ⟨i, _, rfl⟩ := hx
    rw [alias_eq_two_pow]
    refine ⟨by positivity, alias_bit (dec.channel_at setup i), alias_bit_lt _, ?_⟩
    rw [Nat.one_shiftLeft]
  · unfold channels_fb
    rw [chanmap_as_bits, popcount_or_of_bits _ hbits]
    · simp
    · intro k hk
      simp only [List.mem_map] at hk
      obtain ⟨c, _, rfl⟩ := hk
      exact alias_bit_lt c

/-- Witness for C2: the 16.1 layout of the sample channel table. -/
theorem chanmap_distinct_flags_witness :
    ((List.range (demo_layout.num_channels cs_16point1)).map
        (demo_layout.channel_at cs_16point1)).Nodup
    ∧ (set_channels_fs demo_layout garbage_params cs_16point1).chanmap.length = 17
    ∧ popcount (channels_fb (set_channels_fs demo_layout garbage_params cs_16point1)) = 17 :=
  ⟨by decide,
   (chanmap_distinct_flags demo_layout garbage_params cs_16point1 (by decide)).1,
   (chanmap_distinct_flags demo_layout garbage_params cs_16point1 (by decide)).2.2.2.1⟩

theorem load_field_some {α : Type} (get : List Nat → Option (α × List Nat))
    (set : freesurround_params → α → freesurround_params)
    (st : freesurround_params × Option (List Nat)) (s1 : List Nat)
    (h : (load_field get set st).2 = some s1) :
    ∃ s v, st.2 = some s ∧ get s = some (v, s1) ∧ (load_field get set st).1 = set st.1 v := by
  obtain ⟨q, o⟩ := st
  cases o with
  | none => simp [load_field] at h
  | some s =>
    cases hg : get s with
    | none => simp [load_field, hg] at h
    | some r =>
      obtain ⟨v, s2⟩ := r
      simp only [load_field, hg, Option.some.injEq] at h
      subst h
      exact ⟨s, v, rfl, hg, by simp [load_field, hg]⟩

theorem try_load_to_preset (ar : binary_archive) (hlaw : lawful_archive ar)
    (garbage p : freesurround_params) (rest : List Nat) :
    try_load ar garbage (to_preset ar p ++ rest) = (p, some rest) := by
  simp only [to_preset, serialize_save, save_field, try_load, List.append_assoc, hlaw.header,
    serialize_load, load_field, hlaw.float, hlaw.setup, hlaw.vector, hlaw.bool]

theorem load_of_saved (ar : binary_archive) (hlaw : lawful_archive ar)
    (dec : decoder_layout) (garbage p : freesurround_params) :
    freesurround_params_of_preset ar dec garbage (to_preset ar p) = p := by
  have h := try_load_to_preset ar hlaw garbage p []
  rw [List.append_nil] at h
  simp [freesurround_params_of_preset, h]

theorem word_archive_lawful : lawful_archive word_archive := by
  refine ⟨?_, ?_, ?_, ?_, ?_⟩
  · intro rest
    rfl
  · intro v rest
    rfl
  · intro v rest
    have hcode : setup_of_code (setup_code v) = v := by
      cases v with
      | cs_unlisted n =>
        have hnone : remap[16 + n]? = none :=
          List.getElem?_eq_none (by simp [remap])
        simp [setup_code, setup_of_code, hnone]
      | _ => rfl
    simp [word_archive, hcode]
  · intro v rest
    simp [word_archive]
  · intro v rest
    cases v <;> rfl

theorem default_eq (dec : decoder_layout) :
    freesurround_params_default dec
    = { center_image := f32_0_7, shift := f32_0, depth := f32_1, circular_wrap := f32_90,
        focus := f32_0, front_sep := f32_1, rear_sep := f32_1, bass_lo := f32_40,
        bass_hi := f32_90, use_lfe := false, channels_fs := cs_5point1,
        chanmap := (List.range (dec.num_channels cs_5point1)).map
          (fun i => alias_table (dec.channel_at cs_5point1 i)) } := by
  unfold freesurround_params_default
  rw [set_channels_fs_eq]

/-- C3. When deserialization of a preset blob fails (the archive constructor or any field
read throws), the constructed parameter set equals the default-constructed one in every
field: 0.7, 0, 1, 90, 0, 1, 1, 40, 90, `false`, the 5.1 layout and the table derived for 5.1.
In every case the result is either the object exactly as a complete load left it or exactly
the default, never a partly loaded object. -/
theorem of_preset_failure_yields_default (ar : binary_archive) (dec : decoder_layout)
    (garbage : freesurround_params) (blob : List Nat)
    (hfail : (try_load ar garbage blob).2 = none) :
    freesurround_params_of_preset ar dec garbage blob = freesurround_params_default dec
    ∧ freesurround_params_of_preset ar dec garbage blob
      = { center_image := f32_0_7, shift := f32_0, depth := f32_1, circular_wrap := f32_90,
          focus := f32_0, front_sep := f32_1, rear_sep := f32_1, bass_lo := f32_40,
          bass_hi := f32_90, use_lfe := false, channels_fs := cs_5point1,
          chanmap := (List.range (dec.num_channels cs_5point1)).map
            (fun i => alias_table (dec.channel_at cs_5point1 i)) }
    ∧ (∀ (g : freesurround_params) (b : List Nat),
        freesurround_params_of_preset ar dec g b = freesurround_params_default dec
        ∨ ∃ s, try_load ar g b = (freesurround_params_of_preset ar dec g b, some s)) := by
  have h1 : freesurround_params_of_preset ar dec garbage blob
      = freesurround_params_default dec := by
    unfold freesurround_params_of_preset
    cases hl : try_load ar garbage blob with
    | mk q o =>
      rw [hl] at hfail
      simp only at hfail
      subst hfail
      rfl
  refine ⟨h1, ?_, ?_⟩
  · rw [h1, default_eq]
  · intro g b
    unfold freesurround_params_of_preset
    cases hl : try_load ar g b with
    | mk q o =>
      cases o with
      | none => exact Or.inl rfl
      | some s => exact Or.inr ⟨s, rfl⟩

/-- Witness for C3: a blob cut off after three fields;
the three fields had been stored in the object when the read failed. -/
theorem of_preset_failure_yields_default_witness :
    (try_load word_archive garbage_params [1, 5, 6, 7]).2 = none
    ∧ (try_load word_archive garbage_params [1, 5, 6, 7]).1.center_image = 5
    ∧ freesurround_params_of_preset word_archive demo_layout garbage_params [1, 5, 6, 7]
      = freesurround_params_default demo_layout :=
  ⟨by decide, by decide,
   (of_preset_failure_yields_default word_archive demo_layout garbage_params [1, 5, 6, 7]
      (by decide)).1⟩

/-- C4. Round trip: with an archive whose reads invert its writes, constructing a parameter
set from the preset written by `to_preset` of any parameter set `p` gives back `p` (all
scalar fields, `channels_fs` and `chanmap`); the load consumes the blob exactly, field by
field in the order it was written. -/
theorem of_preset_to_preset_roundtrip (ar : binary_archive) (hlaw : lawful_archive ar)
    (dec : decoder_layout) (garbage p : freesurround_params) :
    freesurround_params_of_preset ar dec garbage (to_preset ar p) = p
    ∧ try_load ar garbage (to_preset ar p) = (p, some []) := by
  refine ⟨load_of_saved ar hlaw dec garbage p, ?_⟩
  have h := try_load_to_preset ar hlaw garbage p []
  rw [List.append_nil] at h
  exact h

/-- Witness for C4: the word archive, and the default set
after an assignment to `shift` and a change of layout to 7.1. -/
theorem of_preset_to_preset_roundtrip_witness :
    lawful_archive word_archive
    ∧ freesurround_params_of_preset word_archive demo_layout garbage_params
        (to_preset word_archive
          (set_channels_fs demo_layout
            { freesurround_params_default demo_layout with shift := f32_1 } cs_7point1))
      = set_channels_fs demo_layout
          { freesurround_params_default demo_layout with shift := f32_1 } cs_7point1 :=
  ⟨word_archive_lawful,
   (of_preset_to_preset_roundtrip word_archive word_archive_lawful demo_layout garbage_params
      (set_channels_fs demo_layout
        { freesurround_params_default demo_layout with shift := f32_1 } cs_7point1)).1⟩

/-- C5, as stated, fails: a blob that stores the stereo layout together with the one-entry
table `[3]` deserializes successfully, and the constructed parameter set keeps that stored
table; it is not the table `set_channels_fs` derives for the stereo layout, and its length
is not the channel count of the layout. -/
theorem of_preset_keeps_stored_chanmap :
    (try_load word_archive garbage_params
        [1, 1060320051, 0, 1065353216, 1119092736, 0, 1065353216, 1065353216, 0, 1, 3,
         1109393408, 1119092736, 0]).2 = some []
    ∧ (freesurround_params_of_preset word_archive demo_layout garbage_params
        [1, 1060320051, 0, 1065353216, 1119092736, 0, 1065353216, 1065353216, 0, 1, 3,
         1109393408, 1119092736, 0]).channels_fs = cs_stereo
    ∧ (freesurround_params_of_preset word_archive demo_layout garbage_params
        [1, 1060320051, 0, 1065353216, 1119092736, 0, 1065353216, 1065353216, 0, 1, 3,
         1109393408, 1119092736, 0]).chanmap = [3]
    ∧ (set_channels_fs demo_layout garbage_params cs_stereo).chanmap = [1, 2, 8]
    ∧ (freesurround_params_of_preset word_archive demo_layout garbage_params
        [1, 1060320051, 0, 1065353216, 1119092736, 0, 1065353216, 1065353216, 0, 1, 3,
         1109393408, 1119092736, 0]).chanmap.length
      ≠ demo_layout.num_channels cs_stereo := by
  decide

theorem serialize_load_reads (ar : binary_archive) (this0 : freesurround_params)
    (s0 s : List Nat) (h : (serialize_load ar (this0, some s0)).2 = some s) :
    ∃ c1 s1 c2 s2 c3 s3 c4 s4 c5 s5 c6 s6 c7 s7 cs s8 cm s9 lo s10 hi s11 b,
      ar.get_float s0 = some (c1, s1)
      ∧ ar.get_float s1 = some (c2, s2)
      ∧ ar.get_float s2 = some (c3, s3)
      ∧ ar.get_float s3 = some (c4, s4)
      ∧ ar.get_float s4 = some (c5, s5)
      ∧ ar.get_float s5 = some (c6, s6)
      ∧ ar.get_float s6 = some (c7, s7)
      ∧ ar.get_setup s7 = some (cs, s8)
      ∧ ar.get_vector s8 = some (cm, s9)
      ∧ ar.get_float s9 = some (lo, s10)
      ∧ ar.get_float s10 = some (hi, s11)
      ∧ ar.get_bool s11 = some (b, s)
      ∧ serialize_load ar (this0, some s0)
        = ({ center_image := c1, shift := c2, depth := c3, circular_wrap := c4, focus := c5,
             front_sep := c6, rear_sep := c7, bass_lo := lo, bass_hi := hi, use_lfe := b,
             channels_fs := cs, chanmap := cm }, some s) := by
  unfold serialize_load at h
  obtain ⟨s11, b, h11, g12, e12⟩ := load_field_some _ _ _ _ h
  obtain ⟨s10, hi, h10, g11, e11⟩ := load_field_some _ _ _ _ h11
  obtain ⟨s9, lo, h9, g10, e10⟩ := load_field_some _ _ _ _ h10
  obtain ⟨s8, cm, h8, g9, e9⟩ := load_field_some _ _ _ _ h9
  obtain ⟨s7, cs, h7, g8, e8⟩ := load_field_some _ _ _ _ h8
  obtain ⟨s6, c7, h6, g7, e7⟩ := load_field_some _ _ _ _ h7
  obtain ⟨s5, c6, h5, g6, e6⟩ := load_field_some _ _ _ _ h6
  obtain ⟨s4, c5, h4, g5, e5⟩ := load_field_some _ _ _ _ h5
  obtain ⟨s3, c4, h3, g4, e4⟩ := load_field_some _ _ _ _ h4
  obtain ⟨s2, c3, h2, g3, e3⟩ := load_field_some _ _ _ _ h3
  obtain ⟨s1, c2, h1, g2, e2⟩ := load_field_some _ _ _ _ h2
  obtain ⟨t0, c1, ht, g1, e1⟩ := load_field_some _ _ _ _ h1
  simp only [Option.some.injEq] at ht
  subst ht
  refine ⟨c1, s1, c2, s2, c3, s3, c4, s4, c5, s5, c6, s6, c7, s7, cs, s8, cm, s9, lo, s10, hi,
    s11, b, g1, g2, g3, g4, g5, g6, g7, g8, g9, g10, g11, g12, ?_⟩
  unfold serialize_load
  simp only [load_field, g1, g2, g3, g4, g5, g6, g7, g8, g9, g10, g11, g12]

/-- C5, amended.  A load succeeds exactly along one chain of reads: the header, seven
`float`s, the layout, the vector, two `float`s and the `bool`, each read continuing where
the previous one stopped; the constructed parameter set consists of the values read, and
its table is the vector read from the blob at its position in that chain (nothing is
recomputed).  With an archive whose reads invert its writes, the table loaded from the
preset written by `to_preset` of any parameter set is that set's table, derived or not.
Hence it is the table derived from the loaded `channels_fs`, and has
`num_channels(channels_fs)` entries, when the blob was written from a parameter set whose
table is the derived one; the default-constructed set and every result of `set_channels_fs`
are such sets. -/
theorem of_preset_chanmap_is_stored_vector (ar : binary_archive) (dec : decoder_layout)
    (garbage : freesurround_params) :
    (∀ (blob s : List Nat), (try_load ar garbage blob).2 = some s →
      ∃ s0 c1 s1 c2 s2 c3 s3 c4 s4 c5 s5 c6 s6 c7 s7 cs s8 cm s9 lo s10 hi s11 b,
        ar.get_header blob = some s0
        ∧ ar.get_float s0 = some (c1, s1)
        ∧ ar.get_float s1 = some (c2, s2)
        ∧ ar.get_float s2 = some (c3, s3)
        ∧ ar.get_float s3 = some (c4, s4)
        ∧ ar.get_float s4 = some (c5, s5)
        ∧ ar.get_float s5 = some (c6, s6)
        ∧ ar.get_float s6 = some (c7, s7)
        ∧ ar.get_setup s7 = some (cs, s8)
        ∧ ar.get_vector s8 = some (cm, s9)
        ∧ ar.get_float s9 = some (lo, s10)
        ∧ ar.get_float s10 = some (hi, s11)
        ∧ ar.get_bool s11 = some (b, s)
        ∧ freesurround_params_of_preset ar dec garbage blob
          = { center_image := c1, shift := c2, depth := c3, circular_wrap := c4, focus := c5,
              front_sep := c6, rear_sep := c7, bass_lo := lo, bass_hi := hi, use_lfe := b,
              channels_fs := cs, chanmap := cm })
    ∧ (lawful_archive ar → ∀ p : freesurround_params,
        (freesurround_params_of_preset ar dec garbage (to_preset ar p)).chanmap = p.chanmap
        ∧ (freesurround_params_of_preset ar dec garbage (to_preset ar p)).channels_fs
          = p.channels_fs)
    ∧ (lawful_archive ar → ∀ p : freesurround_params,
        p.chanmap = (set_channels_fs dec p p.channels_fs).chanmap →
        (freesurround_params_of_preset ar dec garbage (to_preset ar p)).chanmap
          = (set_channels_fs dec (freesurround_params_of_preset ar dec garbage (to_preset ar p))
              (freesurround_params_of_preset ar dec garbage (to_preset ar p)).channels_fs).chanmap
        ∧ (freesurround_params_of_preset ar dec garbage (to_preset ar p)).chanmap.length
          = dec.num_channels
              (freesurround_params_of_preset ar dec garbage (to_preset ar p)).channels_fs)
    ∧ (freesurround_params_default dec).chanmap
        = (set_channels_fs dec (freesurround_params_default dec)
            (freesurround_params_default dec).channels_fs).chanmap
    ∧ (freesurround_params_default dec).chanmap.length
        = dec.num_channels (freesurround_params_default dec).channels_fs
    ∧ (∀ (p : freesurround_params) (setup : channel_setup),
        (set_channels_fs dec p setup).chanmap
          = (set_channels_fs dec (set_channels_fs dec p setup)
              (set_channels_fs dec p setup).channels_fs).chanmap
        ∧ (set_channels_fs dec p setup).chanmap.length
          = dec.num_channels (set_channels_fs dec p setup).channels_fs) := by
  refine ⟨?_, ?_, ?_, ?_, ?_, ?_⟩
  · intro blob s h
    unfold freesurround_params_of_preset
    unfold try_load at h ⊢
    cases hh : ar.get_header blob with
    | none => simp [hh] at h
    | some s0 =>
      simp only [hh] at h ⊢
      obtain ⟨c1, s1, c2, s2, c3, s3, c4, s4, c5, s5, c6, s6, c7, s7, cs, s8, cm, s9, lo, s10,
        hi, s11, b, g1, g2, g3, g4, g5, g6, g7, g8, g9, g10, g11, g12, e⟩ :=
        serialize_load_reads ar _ s0 s h
      refine ⟨s0, c1, s1, c2, s2, c3, s3, c4, s4, c5, s5, c6, s6, c7, s7, cs, s8, cm, s9, lo,
        s10, hi, s11, b, rfl, g1, g2, g3, g4, g5, g6, g7, g8, g9, g10, g11, g12, ?_⟩
      rw [e]
  · intro hlaw p
    rw [load_of_saved ar hlaw dec garbage p]
    exact ⟨rfl, rfl⟩
  · intro hlaw p hp
    rw [load_of_saved ar hlaw dec garbage p]
    refine ⟨hp, ?_⟩
    rw [hp, set_channels_fs_eq]
    simp
  · rw [default_eq, set_channels_fs_eq]
  · rw [default_eq]
    simp
  · intro p setup
    constructor
    · rw [set_channels_fs_eq, set_channels_fs_eq]
    · rw [set_channels_fs_eq]
      simp

/-- Witness for C5: the blob written from the default set loads, its table is the one
that was stored, and that table is the derived one of six entries. -/
theorem of_preset_chanmap_is_stored_vector_witness :
    lawful_archive word_archive
    ∧ (freesurround_params_default demo_layout).chanmap
        = (set_channels_fs demo_layout (freesurround_params_default demo_layout)
            (freesurround_params_default demo_layout).channels_fs).chanmap
    ∧ (freesurround_params_of_preset word_archive demo_layout garbage_params
        (to_preset word_archive
          { freesurround_params_default demo_layout with chanmap := [3] })).chanmap = [3]
    ∧ (freesurround_params_of_preset word_archive demo_layout garbage_params
        (to_preset word_archive (freesurround_params_default demo_layout))).chanmap.length
      = demo_layout.num_channels
          (freesurround_params_of_preset word_archive demo_layout garbage_params
            (to_preset word_archive (freesurround_params_default demo_layout))).channels_fs :=
  ⟨word_archive_lawful, by decide,
   ((of_preset_chanmap_is_stored_vector word_archive demo_layout garbage_params).2.1
      word_archive_lawful { freesurround_params_default demo_layout with chanmap := [3] }).1,
   ((of_preset_chanmap_is_stored_vector word_archive demo_layout garbage_params).2.2.1
      word_archive_lawful (freesurround_params_default demo_layout) (by decide)).2⟩

theorem get_latency_below_one_second {δ : Type} (D : decoder_ops δ) (st : freesurround_dsp δ)
    (hr : st.rechunker.length = 44100) (hd : D.buffered st.decoder = 0)
    (hs : st.srate = 44100) :
    get_latency D st = 0 := by
  unfold get_latency
  rw [hr, hd, hs]
  norm_num

/-- C7, evaluated on the code.  With 44100 samples (22050 frames) retained by the rechunker,
nothing held by the decoder and a sample rate of 44100, `get_latency` returns `0`, whereas
the exact quotient of the buffered frames by the sample rate is `1/2`: the divisions of the
source are integer divisions.  In general the result is the whole number of seconds, and it
is `0` when the sample rate is `0`. -/
theorem get_latency_is_integer_quotient :
    get_latency (constant_decoder 6)
        { params := freesurround_params_default demo_layout,
          rechunker := List.replicate 44100 0, decoder := 0, srate := 44100,
          chan_code := 63, emitted := [] } = 0
    ∧ (((List.replicate 44100 (0 : float32)).length / 2 + 0 : Nat) : ℚ) / (44100 : ℚ) = 1 / 2
    ∧ (∀ {δ : Type} (D : decoder_ops δ) (st : freesurround_dsp δ),
        get_latency D st
          = (((st.rechunker.length / 2 + D.buffered st.decoder) % 2 ^ 32 / st.srate : Nat) : ℚ))
    ∧ (∀ {δ : Type} (D : decoder_ops δ) (st : freesurround_dsp δ),
        st.srate = 0 → get_latency D st = 0) := by
  refine ⟨?_, ?_, ?_, ?_⟩
  · exact get_latency_below_one_second (constant_decoder 6) _
      (List.length_replicate 44100 0) rfl rfl
  · rw [List.length_replicate]
    norm_num
  · intro δ D st
    unfold get_latency
    by_cases h : st.srate = 0
    · simp [h]
    · simp [h]
  · intro δ D st h
    simp [get_latency, h]

/-- C10. The two layout tables of the configuration dialog are mutually inverse: the index
computed by the constructor's `switch` for the `i`-th entry of `remap[]` is `i`, for every
`i` in `0..15`; `remap[combo_index(s)] = s` for each of the sixteen listed layouts; the
computed index is always within the bounds of `remap[]`, a layout outside the sixteen giving
index `0`, whose entry is stereo.  Hence opening the dialog on a parameter set with a listed
layout and applying it unchanged preserves `channels_fs`. -/
theorem dialog_layout_tables_inverse :
    remap.length = 16
    ∧ (∀ i, i < 16 → ∃ s, remap[i]? = some s ∧ combo_config_of s = i)
    ∧ (∀ s, s ∈ remap → remap[combo_config_of s]? = some s)
    ∧ (∀ s, combo_config_of s < remap.length)
    ∧ (∀ v, combo_config_of (cs_unlisted v) = 0)
    ∧ remap[0]? = some cs_stereo
    ∧ (∀ (dec : decoder_layout) (p : freesurround_params), p.channels_fs ∈ remap →
        (dialog_apply_unchanged dec p).channels_fs = p.channels_fs) := by
  have hinv : ∀ s, s ∈ remap → remap[combo_config_of s]? = some s := by
    intro s hs
    cases s with
    | cs_unlisted v => simp [remap] at hs
    | _ => rfl
  refine ⟨rfl, by decide, hinv, ?_, fun _ => rfl, rfl, ?_⟩
  · intro s
    cases s with
    | cs_unlisted v => simp [combo_config_of, remap]
    | _ => decide
  · intro dec p hp
    unfold dialog_apply_unchanged DoDataExchange_layout
    rw [hinv _ hp]
    simp only [set_channels_fs_eq]

/-- Witness for C10: a parameter set with the 9.1 wrap
layout keeps it through the dialog. -/
theorem dialog_layout_tables_inverse_witness :
    cs_9point1_wrap ∈ remap
    ∧ (dialog_apply_unchanged demo_layout
        (set_channels_fs demo_layout garbage_params cs_9point1_wrap)).channels_fs
      = cs_9point1_wrap :=
  ⟨by decide,
   dialog_layout_tables_inverse.2.2.2.2.2.2 demo_layout
     (set_channels_fs demo_layout garbage_params cs_9point1_wrap) (by decide)⟩

theorem chan_writes_succ (num idx c k f0 : Nat) :
    chan_writes num idx c (k + 1) f0
    = ((idx + f0 * num) % 2 ^ 32, c + f0 * num) :: chan_writes num idx c k (f0 + 1) := by
  unfold chan_writes
  rw [List.range_succ_eq_map, List.map_cons, List.map_map]
  congr 1
  apply List.map_congr_left
  intro j _
  simp only [Function.comp, Nat.succ_eq_add_one]
  rw [show f0 + (j + 1) = f0 + 1 + j by omega]

theorem apply_writes_append (src : Nat → float32) (ws1 ws2 : List (Nat × Nat))
    (st : remap_state) :
    apply_writes src (ws1 ++ ws2) st = apply_writes src ws2 (apply_writes src ws1 st) := by
  unfold apply_writes
  rw [List.foldl_append]

theorem apply_writes_written (src : Nat → float32) (ws : List (Nat × Nat)) (st : remap_state) :
    (apply_writes src ws st).written = st.written ++ ws.map Prod.fst := by
  induction ws generalizing st with
  | nil => simp [apply_writes]
  | cons w ws ih =>
    have h : apply_writes src (w :: ws) st
        = apply_writes src ws
            { dst := st.dst.set w.1 (src w.2), written := st.written ++ [w.1] } := rfl
    rw [h, ih]
    simp

theorem apply_writes_length (src : Nat → float32) (ws : List (Nat × Nat)) (st : remap_state) :
    (apply_writes src ws st).dst.length = st.dst.length := by
  induction ws generalizing st with
  | nil => rfl
  | cons w ws ih =>
    have h : apply_writes src (w :: ws) st
        = apply_writes src ws
            { dst := st.dst.set w.1 (src w.2), written := st.written ++ [w.1] } := rfl
    rw [h, ih]
    simp

theorem apply_writes_untouched (src : Nat → float32) (ws : List (Nat × Nat)) (st : remap_state)
    (i : Nat) (hi : i ∉ ws.map Prod.fst) :
    (apply_writes src ws st).dst[i]? = st.dst[i]? := by
  induction ws generalizing st with
  | nil => rfl
  | cons w ws ih =>
    have h : apply_writes src (w :: ws) st
        = apply_writes src ws
            { dst := st.dst.set w.1 (src w.2), written := st.written ++ [w.1] } := rfl
    simp only [List.map_cons, List.mem_cons, not_or] at hi
    rw [h, ih _ hi.2]
    simp only
    rw [List.getElem?_set_ne (Ne.symm hi.1)]

theorem apply_writes_lands (src : Nat → float32) (ws : List (Nat × Nat)) (st : remap_state)
    (hnd : (ws.map Prod.fst).Nodup) (i j : Nat) (hmem : (i, j) ∈ ws) (hi : i < st.dst.length) :
    (apply_writes src ws st).dst[i]? = some (src j) := by
  induction ws generalizing st with
  | nil => simp at hmem
  | cons w ws ih =>
    have h : apply_writes src (w :: ws) st
        = apply_writes src ws
            { dst := st.dst.set w.1 (src w.2), written := st.written ++ [w.1] } := rfl
    rw [List.map_cons, List.nodup_cons] at hnd
    rw [h]
    rcases List.mem_cons.1 hmem with hw | hw
    · subst hw
      rw [apply_writes_untouched _ _ _ _ hnd.1]
      simp only
      rw [List.getElem?_set_eq_of_lt _ hi]
    · exact ih _ hnd.2 hw (by simpa using hi)

theorem mem_chan_writes (num idx c k f0 i j : Nat) :
    (i, j) ∈ chan_writes num idx c k f0
    ↔ ∃ f, f < k ∧ i = (idx + (f0 + f) * num) % 2 ^ 32 ∧ j = c + (f0 + f) * num := by
  unfold chan_writes
  simp only [List.mem_map, List.mem_range, Prod.mk.injEq]
  constructor
  · rintro ⟨f, hf, h1, h2⟩
    exact ⟨f, hf, h1.symm, h2.symm⟩
  · rintro ⟨f, hf, h1, h2⟩
    exact ⟨f, hf, h1.symm, h2.symm⟩

theorem mem_all_writes (num : Nat) (slot : Nat → Nat) (cs : List Nat) (w : Nat × Nat) :
    w ∈ all_writes num slot cs ↔ ∃ c, c ∈ cs ∧ w ∈ chan_writes num (slot c) c chunk_size 0 := by
  induction cs with
  | nil => simp [all_writes]
  | cons c cs ih =>
    rw [all_writes, List.mem_append, ih]
    simp only [List.mem_cons]
    constructor
    · rintro (h | ⟨d, hd, h⟩)
      · exact ⟨c, Or.inl rfl, h⟩
      · exact ⟨d, Or.inr hd, h⟩
    · rintro ⟨d, (rfl | hd), h⟩
      · exact Or.inl h
      · exact Or.inr ⟨d, hd, h⟩

theorem all_writes_length (num : Nat) (slot : Nat → Nat) (cs : List Nat) :
    (all_writes num slot cs).length = cs.length * chunk_size := by
  induction cs with
  | nil => simp [all_writes]
  | cons c cs ih =>
    rw [all_writes, List.length_append, ih]
    simp only [chan_writes, List.length_map, List.length_range, List.length_cons]
    rw [Nat.add_mul, Nat.one_mul, Nat.add_comm]

theorem all_writes_append (num : Nat) (slot : Nat → Nat) (cs1 cs2 : List Nat) :
    all_writes num slot (cs1 ++ cs2) = all_writes num slot cs1 ++ all_writes num slot cs2 := by
  induction cs1 with
  | nil => rfl
  | cons c cs ih => rw [List.cons_append, all_writes, all_writes, ih, List.append_assoc]

theorem target_no_wrap (num sl f : Nat) (hsl : sl < num) (hf : f < chunk_size)
    (hnum : num * chunk_size ≤ 2 ^ 32) :
    (sl + f * num) % 2 ^ 32 = sl + f * num ∧ sl + f * num < num * chunk_size := by
  have h1 : sl + f * num < (f + 1) * num := by
    rw [Nat.add_mul, Nat.one_mul]
    omega
  have h2 : (f + 1) * num ≤ chunk_size * num := Nat.mul_le_mul_right num (by omega)
  have h3 : sl + f * num < num * chunk_size := by
    rw [Nat.mul_comm num]
    omega
  exact ⟨Nat.mod_eq_of_lt (by omega), h3⟩

theorem target_split (num s1 f1 s2 f2 : Nat) (h1 : s1 < num) (h2 : s2 < num)
    (h : s1 + f1 * num = s2 + f2 * num) : s1 = s2 ∧ f1 = f2 := by
  have hm : (s1 + f1 * num) % num = (s2 + f2 * num) % num := by rw [h]
  rw [Nat.add_mul_mod_self_right, Nat.add_mul_mod_self_right, Nat.mod_eq_of_lt h1,
    Nat.mod_eq_of_lt h2] at hm
  subst hm
  have hpos : 0 < num := by omega
  have h3 : f1 * num = f2 * num := by omega
  exact ⟨rfl, Nat.eq_of_mul_eq_mul_right hpos h3⟩

theorem chan_writes_targets_nodup (num sl c : Nat) (hsl : sl < num)
    (hnum : num * chunk_size ≤ 2 ^ 32) :
    ((chan_writes num sl c chunk_size 0).map Prod.fst).Nodup := by
  unfold chan_writes
  rw [List.map_map]
  apply List.Nodup.map_on _ (List.nodup_range _)
  intro f1 hf1 f2 hf2 h
  simp only [Function.comp, Nat.zero_add] at h
  rw [(target_no_wrap num sl f1 hsl (List.mem_range.1 hf1) hnum).1,
    (target_no_wrap num sl f2 hsl (List.mem_range.1 hf2) hnum).1] at h
  exact (target_split num sl f1 sl f2 hsl hsl h).2

theorem all_writes_targets_nodup (num : Nat) (slot : Nat → Nat) (cs : List Nat)
    (hcs : cs.Nodup) (hlt : ∀ c ∈ cs, slot c < num)
    (hinj : ∀ c1 ∈ cs, ∀ c2 ∈ cs, slot c1 = slot c2 → c1 = c2)
    (hnum : num * chunk_size ≤ 2 ^ 32) :
    ((all_writes num slot cs).map Prod.fst).Nodup := by
  induction cs with
  | nil => simp [all_writes]
  | cons c cs ih =>
    rw [List.nodup_cons] at hcs
    rw [all_writes, List.map_append, List.nodup_append]
    refine ⟨chan_writes_targets_nodup num (slot c) c (hlt c (List.mem_cons_self _ _)) hnum,
      ih hcs.2 (fun d hd => hlt d (List.mem_cons_of_mem _ hd))
        (fun c1 h1 c2 h2 => hinj c1 (List.mem_cons_of_mem _ h1) c2 (List.mem_cons_of_mem _ h2))
        , ?_⟩
    rw [List.disjoint_left]
    intro t ht1 ht2
    rw [List.mem_map] at ht1 ht2
    obtain ⟨⟨i1, j1⟩, hw1, rfl⟩ := ht1
    obtain ⟨⟨i2, j2⟩, hw2, he⟩ := ht2
    simp only at he
    rw [mem_chan_writes] at hw1
    rw [mem_all_writes] at hw2
    obtain ⟨f1, hf1, hi1, -⟩ := hw1
    obtain ⟨d, hd, hw2⟩ := hw2
    rw [mem_chan_writes] at hw2
    obtain ⟨f2, hf2, hi2, -⟩ := hw2
    have hsc := hlt c (List.mem_cons_self _ _)
    have hsd := hlt d (List.mem_cons_of_mem _ hd)
    rw [Nat.zero_add, (target_no_wrap num (slot c) f1 hsc hf1 hnum).1] at hi1
    rw [Nat.zero_add, (target_no_wrap num (slot d) f2 hsd hf2 hnum).1] at hi2
    have hslot : slot c = slot d :=
      (target_split num (slot c) f1 (slot d) f2 hsc hsd (by omega)).1
    have hcd : c = d := hinj c (List.mem_cons_self _ _) d (List.mem_cons_of_mem _ hd) hslot
    subst hcd
    exact hcs.1 hd

theorem perm_range_of_nodup (n : Nat) (l : List Nat) (hnd : l.Nodup) (hlen : l.length = n)
    (hlt : ∀ x ∈ l, x < n) : l.Perm (List.range n) := by
  apply List.perm_of_nodup_nodup_toFinset_eq hnd (List.nodup_range n)
  apply Finset.eq_of_subset_of_card_le
  · intro x hx
    rw [List.mem_toFinset] at hx ⊢
    exact List.mem_range.2 (hlt x hx)
  · rw [List.toFinset_card_of_nodup hnd, List.toFinset_card_of_nodup (List.nodup_range n)]
    simp [hlen]

/-- The remapping loops, for any slot assignment that sends the channels `0 .. num-1`
injectively into `0 .. num-1`: every sample lands at its slot, and the assigned indices are
a rearrangement of `0 .. num*chunk_size-1`. -/
theorem remap_writes_bijective (src : Nat → float32) (num : Nat) (slot : Nat → Nat)
    (hlt : ∀ c, c < num → slot c < num)
    (hinj : ∀ c1, c1 < num → ∀ c2, c2 < num → slot c1 = slot c2 → c1 = c2)
    (hnum : num * chunk_size ≤ 2 ^ 32) (st : remap_state)
    (hlen : st.dst.length = num * chunk_size) :
    (∀ c f, c < num → f < chunk_size →
      (apply_writes src (all_writes num slot (List.range num)) st).dst[f * num + slot c]?
        = some (src (f * num + c)))
    ∧ ((all_writes num slot (List.range num)).map Prod.fst).Perm (List.range (num * chunk_size))
    := by
  have hnd : ((all_writes num slot (List.range num)).map Prod.fst).Nodup :=
    all_writes_targets_nodup num slot (List.range num) (List.nodup_range num)
      (fun c hc => hlt c (List.mem_range.1 hc))
      (fun c1 h1 c2 h2 => hinj c1 (List.mem_range.1 h1) c2 (List.mem_range.1 h2)) hnum
  constructor
  · intro c f hc hf
    have hw := target_no_wrap num (slot c) f (hlt c hc) hf hnum
    apply apply_writes_lands src _ st hnd
    · rw [mem_all_writes]
      refine ⟨c, List.mem_range.2 hc, ?_⟩
      rw [mem_chan_writes]
      refine ⟨f, hf, ?_, ?_⟩
      · rw [Nat.zero_add, hw.1, Nat.add_comm]
      · rw [Nat.zero_add, Nat.add_comm]
    · rw [hlen, Nat.add_comm]
      exact hw.2
  · apply perm_range_of_nodup _ _ hnd
    · rw [List.length_map, all_writes_length, List.length_range]
    · intro t ht
      rw [List.mem_map] at ht
      obtain ⟨⟨i, j⟩, hw, rfl⟩ := ht
      rw [mem_all_writes] at hw
      obtain ⟨c, hc, hw⟩ := hw
      rw [mem_chan_writes] at hw
      obtain ⟨f, hf, hi, -⟩ := hw
      have h := target_no_wrap num (slot c) f (hlt c (List.mem_range.1 hc)) hf hnum
      simp only
      rw [hi, Nat.zero_add, h.1]
      exact h.2

theorem index_from_flag_walk_two_pow (cfg k : Nat) (n walk index : Nat) (h1 : walk ≤ k)
    (h2 : k < walk + n) :
    index_from_flag_walk cfg (2 ^ k) n walk index
    = index + ((List.range' walk (k - walk)).filter (fun j => cfg.testBit j)).length := by
  induction n generalizing walk index with
  | zero => omega
  | succ n ih =>
    unfold index_from_flag_walk
    rw [Nat.testBit_two_pow]
    by_cases hk : k = walk
    · subst hk
      simp
    · have hlt : walk < k := by omega
      have hsub : k - walk = (k - (walk + 1)) + 1 := by omega
      rw [if_neg (by simpa using hk), ih (walk + 1) _ (by omega) (by omega), hsub,
        List.range'_succ, List.filter_cons]
      by_cases hb : cfg.testBit walk
      · simp only [hb, if_true, List.length_cons]
        omega
      · simp only [hb, if_false, Bool.false_eq_true]

theorem index_from_flag_two_pow (cfg k : Nat) (hk : k < 32) :
    g_channel_index_from_flag cfg (2 ^ k)
    = ((List.range k).filter (fun j => cfg.testBit j)).length := by
  unfold g_channel_index_from_flag
  rw [index_from_flag_walk_two_pow cfg k 32 0 0 (Nat.zero_le _) (by omega), Nat.zero_add,
    Nat.sub_zero, List.range_eq_range']

theorem index_from_flag_eq_rank (ks : List Nat) (k : Nat) (hk : k < 32) :
    g_channel_index_from_flag ((ks.map (fun j => 2 ^ j)).foldl (fun res x => res ||| x) 0)
      (2 ^ k) = rank ks k := by
  rw [index_from_flag_two_pow _ _ hk]
  unfold rank
  congr 2
  funext j
  exact testBit_or_of_bits ks j

theorem rank_lt_length (ks : List Nat) (k : Nat) (hk : k ∈ ks) :
    rank ks k < ks.length := by
  unfold rank
  have hnd2 : (k :: (List.range k).filter (fun j => decide (j ∈ ks))).Nodup := by
    rw [List.nodup_cons]
    refine ⟨?_, (List.nodup_range k).filter _⟩
    simp [List.mem_filter]
  have hsub : (k :: (List.range k).filter (fun j => decide (j ∈ ks))) ⊆ ks := by
    intro x hx
    rcases List.mem_cons.1 hx with rfl | hx
    · exact hk
    · simpa using (List.mem_filter.1 hx).2
  have := (hnd2.subperm hsub).length_le
  simp only [List.length_cons] at this
  omega

theorem rank_lt_rank (ks : List Nat) (k1 k2 : Nat) (hk1 : k1 ∈ ks) (hlt : k1 < k2) :
    rank ks k1 < rank ks k2 := by
  unfold rank
  have hnd2 : (k1 :: (List.range k1).filter (fun j => decide (j ∈ ks))).Nodup := by
    rw [List.nodup_cons]
    refine ⟨?_, (List.nodup_range k1).filter _⟩
    simp [List.mem_filter]
  have hsub : (k1 :: (List.range k1).filter (fun j => decide (j ∈ ks)))
      ⊆ (List.range k2).filter (fun j => decide (j ∈ ks)) := by
    intro x hx
    rw [List.mem_filter, List.mem_range]
    rcases List.mem_cons.1 hx with rfl | hx
    · exact ⟨hlt, by simpa using hk1⟩
    · have h := List.mem_filter.1 hx
      exact ⟨by have := List.mem_range.1 h.1; omega, h.2⟩
  have := (hnd2.subperm hsub).length_le
  simp only [List.length_cons] at this
  omega

theorem rank_injective (ks : List Nat) (k1 k2 : Nat) (hk1 : k1 ∈ ks) (hk2 : k2 ∈ ks)
    (h : rank ks k1 = rank ks k2) : k1 = k2 := by
  rcases Nat.lt_trichotomy k1 k2 with hlt | heq | hgt
  · have := rank_lt_rank ks k1 k2 hk1 hlt
    omega
  · exact heq
  · have := rank_lt_rank ks k2 k1 hk2 hgt
    omega

theorem flags_as_bits (chanmap : List Nat)
    (hflag : ∀ x ∈ chanmap, ∃ k, k < 32 ∧ x = 1 <<< k) :
    ∃ ks : List Nat, chanmap = ks.map (fun j => 2 ^ j) ∧ ∀ k ∈ ks, k < 32 := by
  induction chanmap with
  | nil => exact ⟨[], rfl, by simp⟩
  | cons x xs ih =>
    obtain ⟨ks, hks, hlt⟩ := ih (fun y hy => hflag y (List.mem_cons_of_mem _ hy))
    obtain ⟨k, hk, hx⟩ := hflag x (List.mem_cons_self _ _)
    refine ⟨k :: ks, ?_, ?_⟩
    · rw [List.map_cons, ← hks, hx, Nat.one_shiftLeft]
    · intro j hj
      rcases List.mem_cons.1 hj with rfl | hj
      · exact hk
      · exact hlt j hj

theorem nodup_bits_length_le (ks : List Nat) (hnd : ks.Nodup) (hlt : ∀ k ∈ ks, k < 32) :
    ks.length ≤ 32 := by
  have hsub : ks ⊆ List.range 32 := fun k hk => List.mem_range.2 (hlt k hk)
  have := (hnd.subperm hsub).length_le
  simpa using this

/-- For a table of pairwise distinct single-bit flags and the OR of its entries as channel
code, the host slot of entry `c` is below the number of entries, and distinct entries get
distinct slots. -/
theorem slots_bijective (chanmap : List Nat) (hnd : chanmap.Nodup)
    (hflag : ∀ x ∈ chanmap, ∃ k, k < 32 ∧ x = 1 <<< k) :
    chanmap.length ≤ 32
    ∧ (∀ c, c < chanmap.length →
        g_channel_index_from_flag (chanmap.foldl (fun res x => res ||| x) 0)
          (chanmap.getD c 0) < chanmap.length)
    ∧ (∀ c1, c1 < chanmap.length → ∀ c2, c2 < chanmap.length →
        g_channel_index_from_flag (chanmap.foldl (fun res x => res ||| x) 0)
          (chanmap.getD c1 0)
        = g_channel_index_from_flag (chanmap.foldl (fun res x => res ||| x) 0)
          (chanmap.getD c2 0) → c1 = c2) := by
  obtain ⟨ks, rfl, hlt⟩ := flags_as_bits chanmap hflag
  have hks : ks.Nodup := List.Nodup.of_map _ hnd
  have hget : ∀ c, c < ks.length →
      (ks.map (fun j => 2 ^ j)).getD c 0 = 2 ^ (ks.getD c 0) ∧ ks.getD c 0 ∈ ks := by
    intro c hc
    constructor
    · simp only [List.getD_eq_getElem?_getD, List.getElem?_map, List.getElem?_eq_getElem hc,
        Option.map_some', Option.getD_some]
    · simp only [List.getD_eq_getElem?_getD, List.getElem?_eq_getElem hc, Option.getD_some]
      exact List.getElem_mem _
  simp only [List.length_map]
  refine ⟨nodup_bits_length_le ks hks hlt, ?_, ?_⟩
  · intro c hc
    obtain ⟨h1, h2⟩ := hget c hc
    rw [h1, index_from_flag_eq_rank ks _ (hlt _ h2)]
    exact rank_lt_length ks _ h2
  · intro c1 hc1 c2 hc2 h
    obtain ⟨h1, h2⟩ := hget c1 hc1
    obtain ⟨h3, h4⟩ := hget c2 hc2
    rw [h1, h3, index_from_flag_eq_rank ks _ (hlt _ h2),
      index_from_flag_eq_rank ks _ (hlt _ h4)] at h
    have hk := rank_injective ks _ _ h2 h4 h
    simp only [List.getD_eq_getElem?_getD, List.getElem?_eq_getElem hc1,
      List.getElem?_eq_getElem hc2, Option.getD_some] at hk
    exact (hks.getElem_inj_iff).1 hk

theorem copy_channel_eq_writes (src : List float32) (num idx c : Nat) (hnum : 0 < num)
    (k f0 : Nat) (hk : f0 + k = chunk_size) (st : remap_state)
    (hb : ∀ f, f < chunk_size →
      (idx + f * num) % 2 ^ 32 < st.dst.length ∧ c + f * num < src.length) :
    copy_channel src num idx c (f0 * num) st
    = some (apply_writes (fun j => src.getD j 0) (chan_writes num idx c k f0) st) := by
  induction k generalizing f0 st with
  | zero =>
    have h : ¬ f0 * num < num * chunk_size := by
      have : f0 = chunk_size := by omega
      rw [this, Nat.mul_comm]
      exact Nat.lt_irrefl _
    rw [copy_channel, if_neg h]
    rfl
  | succ k ih =>
    have h : f0 * num < num * chunk_size := by
      rw [Nat.mul_comm num]
      exact Nat.mul_lt_mul_of_pos_right (by omega) hnum
    rw [copy_channel, if_pos h, if_pos (hb f0 (by omega)), chan_writes_succ]
    have hs : f0 * num + num = (f0 + 1) * num := by rw [Nat.add_mul, Nat.one_mul]
    rw [hs, ih (f0 + 1) (by omega)]
    · rfl
    · intro f hf
      simpa using hb f hf

theorem remap_fold_eq_writes (src : List float32) (num : Nat) (hnum : 0 < num)
    (slot : Nat → Nat) (cs : List Nat) (st : remap_state)
    (hb : ∀ c, c ∈ cs → ∀ f, f < chunk_size →
      (slot c + f * num) % 2 ^ 32 < st.dst.length ∧ c + f * num < src.length) :
    cs.foldl
      (fun acc c =>
        match acc with
        | some a => copy_channel src num (slot c) c 0 a
        | none => none)
      (some st)
    = some (apply_writes (fun j => src.getD j 0) (all_writes num slot cs) st) := by
  induction cs generalizing st with
  | nil => rfl
  | cons c cs ih =>
    rw [List.foldl_cons, all_writes, apply_writes_append]
    have h := copy_channel_eq_writes src num (slot c) c hnum chunk_size 0 (by omega) st
      (hb c (List.mem_cons_self _ _))
    rw [Nat.zero_mul] at h
    simp only
    rw [h]
    apply ih
    intro d hd f hf
    rw [apply_writes_length]
    exact hb d (List.mem_cons_of_mem _ hd) f hf

theorem remap_channels_eq_writes (chanmap : List Nat) (chan_code : Nat) (src : List float32)
    (st : remap_state)
    (hslot : ∀ c, c < chanmap.length →
      g_channel_index_from_flag chan_code (chanmap.getD c 0) < chanmap.length)
    (hnum : chanmap.length * chunk_size ≤ 2 ^ 32)
    (hlen : st.dst.length = chanmap.length * chunk_size)
    (hsrc : chanmap.length * chunk_size ≤ src.length) :
    remap_channels chanmap chan_code src st
    = some (apply_writes (fun j => src.getD j 0)
        (all_writes chanmap.length
          (fun c => g_channel_index_from_flag chan_code (chanmap.getD c 0))
          (List.range chanmap.length)) st) := by
  unfold remap_channels
  rcases Nat.eq_zero_or_pos chanmap.length with h0 | hpos
  · rw [h0]
    rfl
  · apply remap_fold_eq_writes src chanmap.length hpos
    intro c hc f hf
    have hc2 := List.mem_range.1 hc
    have h1 := target_no_wrap chanmap.length _ f (hslot c hc2) hf hnum
    have h2 := target_no_wrap chanmap.length c f hc2 hf hnum
    rw [h1.1, hlen]
    exact ⟨h1.2, by omega⟩

/-- When every slot is below the number of channels and the decoded block is large enough,
`process_chunk` is defined: it emits one chunk whose data are the silence buffer after the
assignments of the remapping loops. -/
theorem process_chunk_traced_defined {δ : Type} (D : decoder_ops δ) (st : freesurround_dsp δ)
    (stereo : List float32)
    (hslot : ∀ c, c < st.params.chanmap.length →
      g_channel_index_from_flag st.chan_code (st.params.chanmap.getD c 0)
        < st.params.chanmap.length)
    (hnum : st.params.chanmap.length * chunk_size ≤ 2 ^ 32)
    (hsrc : st.params.chanmap.length * chunk_size
      ≤ (D.decode
          (D.high_cutoff (D.low_cutoff st.decoder st.params.bass_lo st.srate)
            st.params.bass_hi st.srate) stereo).2.length) :
    process_chunk_traced D st stereo
    = some
        ({ st with
            decoder := (D.decode
              (D.high_cutoff (D.low_cutoff st.decoder st.params.bass_lo st.srate)
                st.params.bass_hi st.srate) stereo).1
            emitted := st.emitted ++
              [{ channels := st.params.chanmap.length, channel_config := st.chan_code,
                 srate := st.srate, sample_count := chunk_size,
                 data := (apply_writes
                   (fun j => (D.decode
                     (D.high_cutoff (D.low_cutoff st.decoder st.params.bass_lo st.srate)
                       st.params.bass_hi st.srate) stereo).2.getD j 0)
                   (all_writes st.params.chanmap.length
                     (fun c => g_channel_index_from_flag st.chan_code
                       (st.params.chanmap.getD c 0))
                     (List.range st.params.chanmap.length))
                   { dst := List.replicate (st.params.chanmap.length * chunk_size) 0,
                     written := [] }).dst }] },
         (apply_writes
           (fun j => (D.decode
             (D.high_cutoff (D.low_cutoff st.decoder st.params.bass_lo st.srate)
               st.params.bass_hi st.srate) stereo).2.getD j 0)
           (all_writes st.params.chanmap.length
             (fun c => g_channel_index_from_flag st.chan_code (st.params.chanmap.getD c 0))
             (List.range st.params.chanmap.length))
           { dst := List.replicate (st.params.chanmap.length * chunk_size) 0,
             written := [] }).written) := by
  unfold process_chunk_traced
  simp only
  rw [remap_channels_eq_writes _ _ _ _ hslot hnum (List.length_replicate _ _) hsrc]

theorem getElem?_eq_some_getD (l : List float32) (i : Nat) (h : i < l.length) :
    l[i]? = some (l.getD i 0) := by
  rw [List.getD_eq_getElem?_getD, List.getElem?_eq_getElem h, Option.getD_some]

theorem constant_decoder_block_length (num d : Nat) (blk : List float32) :
    ((constant_decoder num).decode d blk).2.length = num * chunk_size := by
  simp [constant_decoder]

theorem constant_decoder_sample (num d : Nat) (blk : List float32) (i : Nat)
    (h : i < num * chunk_size) :
    ((constant_decoder num).decode d blk).2[i]? = some (i % num + 1) := by
  simp only [constant_decoder, List.getElem?_map, List.getElem?_range h, Option.map_some']

/-- The channel copied last is never overwritten: its samples are in the output buffer at
its slot, whatever the slots of the channels copied before it. -/
theorem last_channel_lands (src : Nat → float32) (num : Nat) (slot : Nat → Nat) (c : Nat)
    (st : remap_state) (hslot : slot c < num) (hnum : num * chunk_size ≤ 2 ^ 32)
    (hlen : st.dst.length = num * chunk_size) (f : Nat) (hf : f < chunk_size) :
    (apply_writes src (all_writes num slot (List.range (c + 1))) st).dst[f * num + slot c]?
      = some (src (f * num + c)) := by
  rw [List.range_succ, all_writes_append, apply_writes_append]
  have hw := target_no_wrap num (slot c) f hslot hf hnum
  apply apply_writes_lands
  · rw [all_writes, all_writes, List.append_nil]
    exact chan_writes_targets_nodup _ _ c hslot hnum
  · rw [all_writes, all_writes, List.append_nil, mem_chan_writes]
    refine ⟨f, hf, ?_, ?_⟩
    · rw [Nat.zero_add, hw.1, Nat.add_comm]
    · rw [Nat.zero_add, Nat.add_comm]
  · rw [apply_writes_length, hlen, Nat.add_comm]
    exact hw.2

theorem process_chunk_defined {δ : Type} (D : decoder_ops δ) (st : freesurround_dsp δ)
    (stereo : List float32)
    (hslot : ∀ c, c < st.params.chanmap.length →
      g_channel_index_from_flag st.chan_code (st.params.chanmap.getD c 0)
        < st.params.chanmap.length)
    (hnum : st.params.chanmap.length * chunk_size ≤ 2 ^ 32)
    (hsrc : st.params.chanmap.length * chunk_size
      ≤ (D.decode
          (D.high_cutoff (D.low_cutoff st.decoder st.params.bass_lo st.srate)
            st.params.bass_hi st.srate) stereo).2.length) :
    ∃ chunk : audio_chunk,
      process_chunk D st stereo
        = some { st with
            decoder := (D.decode
              (D.high_cutoff (D.low_cutoff st.decoder st.params.bass_lo st.srate)
                st.params.bass_hi st.srate) stereo).1
            emitted := st.emitted ++ [chunk] }
      ∧ chunk.channels = st.params.chanmap.length
      ∧ chunk.channel_config = st.chan_code
      ∧ chunk.srate = st.srate
      ∧ chunk.sample_count = chunk_size
      ∧ chunk.data.length = st.params.chanmap.length * chunk_size
      ∧ chunk.data
        = (apply_writes
            (fun j => (D.decode
              (D.high_cutoff (D.low_cutoff st.decoder st.params.bass_lo st.srate)
                st.params.bass_hi st.srate) stereo).2.getD j 0)
            (all_writes st.params.chanmap.length
              (fun c => g_channel_index_from_flag st.chan_code (st.params.chanmap.getD c 0))
              (List.range st.params.chanmap.length))
            { dst := List.replicate (st.params.chanmap.length * chunk_size) 0,
              written := [] }).dst := by
  have h := process_chunk_traced_defined D st stereo hslot hnum hsrc
  refine ⟨{ channels := st.params.chanmap.length, channel_config := st.chan_code,
            srate := st.srate, sample_count := chunk_size,
            data := (apply_writes
              (fun j => (D.decode
                (D.high_cutoff (D.low_cutoff st.decoder st.params.bass_lo st.srate)
                  st.params.bass_hi st.srate) stereo).2.getD j 0)
              (all_writes st.params.chanmap.length
                (fun c => g_channel_index_from_flag st.chan_code
                  (st.params.chanmap.getD c 0))
                (List.range st.params.chanmap.length))
              { dst := List.replicate (st.params.chanmap.length * chunk_size) 0,
                written := [] }).dst }, ?_, rfl, rfl, rfl, rfl, ?_, rfl⟩
  · unfold process_chunk
    rw [h]
  · rw [apply_writes_length, List.length_replicate]

/-- C6, as stated, fails: in the plugin instance constructed from a preset whose table is
`[1, 1]` (so `num = 2` and `chan_code = 1`, the OR of the table), both channels have host
slot `0`; with decoder channel `c` entirely the constant `c + 1`, the emitted chunk holds
`2` at position `0*num + slot(chanmap[0])` of frame `0`, while the decoder's sample at
position `0*num + 0` is `1`. -/
theorem process_chunk_duplicate_flags_overwrite :
    duplicate_flags_dsp.params.chanmap = [1, 1]
    ∧ duplicate_flags_dsp.chan_code = channels_fb duplicate_flags_dsp.params
    ∧ g_channel_index_from_flag duplicate_flags_dsp.chan_code
        (duplicate_flags_dsp.params.chanmap.getD 0 0) = 0
    ∧ ((constant_decoder 2).decode
        ((constant_decoder 2).high_cutoff
          ((constant_decoder 2).low_cutoff duplicate_flags_dsp.decoder
            duplicate_flags_dsp.params.bass_lo duplicate_flags_dsp.srate)
          duplicate_flags_dsp.params.bass_hi duplicate_flags_dsp.srate) []).2[0 * 2 + 0]?
      = some 1
    ∧ (∃ (st1 : freesurround_dsp Nat) (chunk : audio_chunk),
        process_chunk (constant_decoder 2) duplicate_flags_dsp [] = some st1
        ∧ st1.emitted = [chunk]
        ∧ chunk.data[0 * 2 + g_channel_index_from_flag duplicate_flags_dsp.chan_code
            (duplicate_flags_dsp.params.chanmap.getD 0 0)]? = some 2) := by
  have hp : duplicate_flags_dsp.params.chanmap = [1, 1] := by decide
  have hl : duplicate_flags_dsp.params.chanmap.length = 1 + 1 := by decide
  have hslot0 : g_channel_index_from_flag duplicate_flags_dsp.chan_code
      (duplicate_flags_dsp.params.chanmap.getD 0 0) = 0 := by decide
  have hslot1 : g_channel_index_from_flag duplicate_flags_dsp.chan_code
      (duplicate_flags_dsp.params.chanmap.getD 1 0) = 0 := by decide
  have hslot : ∀ c, c < duplicate_flags_dsp.params.chanmap.length →
      g_channel_index_from_flag duplicate_flags_dsp.chan_code
        (duplicate_flags_dsp.params.chanmap.getD c 0)
        < duplicate_flags_dsp.params.chanmap.length := by decide
  have hnum : duplicate_flags_dsp.params.chanmap.length * chunk_size ≤ 2 ^ 32 := by decide
  refine ⟨hp, by decide, hslot0, ?_, ?_⟩
  · exact constant_decoder_sample 2 _ _ _ (by decide)
  · obtain ⟨chunk, hpc, -, -, -, -, -, hd⟩ :=
      process_chunk_defined (constant_decoder 2) duplicate_flags_dsp [] hslot hnum
        (by rw [constant_decoder_block_length, hl])
    refine ⟨_, chunk, hpc, rfl, ?_⟩
    have hlast := last_channel_lands
      (fun j => ((constant_decoder 2).decode
        ((constant_decoder 2).high_cutoff
          ((constant_decoder 2).low_cutoff duplicate_flags_dsp.decoder
            duplicate_flags_dsp.params.bass_lo duplicate_flags_dsp.srate)
          duplicate_flags_dsp.params.bass_hi duplicate_flags_dsp.srate) []).2.getD j 0)
      (1 + 1)
      (fun c => g_channel_index_from_flag duplicate_flags_dsp.chan_code
        (duplicate_flags_dsp.params.chanmap.getD c 0))
      1
      { dst := List.replicate ((1 + 1) * chunk_size) 0, written := [] }
      (by beta_reduce; rw [hslot1]; decide) (by decide) (List.length_replicate _ _) 0
      (by decide)
    rw [hl] at hd
    rw [hd, hslot0]
    simp only [hslot1] at hlast
    rw [hlast]
    have hs := constant_decoder_sample 2
      ((constant_decoder 2).high_cutoff
          ((constant_decoder 2).low_cutoff duplicate_flags_dsp.decoder
            duplicate_flags_dsp.params.bass_lo duplicate_flags_dsp.srate)
          duplicate_flags_dsp.params.bass_hi duplicate_flags_dsp.srate) [] (0 * (1 + 1) + 1)
      (by decide)
    rw [getElem?_eq_some_getD _ _ (by rw [constant_decoder_block_length]; decide)] at hs
    exact hs

/-- C6, amended.  When the entries of `chanmap` are pairwise distinct single-bit flags,
`chan_code` is their OR, and the block returned by the decoder holds at least
`num*chunk_size` samples for `num = chanmap.size()`, `process_chunk` emits one chunk of
`num` channels in which, for every logical channel `c < num` and every frame
`f < chunk_size`, the sample at position
`f*num + channel_index_from_flag(chan_code, chanmap[c])` is the decoder's output sample at
position `f*num + c`; the slot of every channel is below `num`.  Consequently a decoder
channel that is entirely the constant `c + 1` appears as that constant at its slot in every
frame.  The assigned indices are a rearrangement of `0 .. num*chunk_size - 1`: every output
position is written exactly once and no index lies outside the buffer. -/
theorem process_chunk_remaps_distinct_flags {δ : Type} (D : decoder_ops δ)
    (st : freesurround_dsp δ) (stereo : List float32)
    (hcode : st.chan_code = channels_fb st.params)
    (hnd : st.params.chanmap.Nodup)
    (hflag : ∀ x ∈ st.params.chanmap, ∃ k, k < 32 ∧ x = 1 <<< k)
    (hsrc : st.params.chanmap.length * chunk_size
      ≤ (D.decode
          (D.high_cutoff (D.low_cutoff st.decoder st.params.bass_lo st.srate)
            st.params.bass_hi st.srate) stereo).2.length) :
    (∃ (st1 : freesurround_dsp δ) (chunk : audio_chunk),
      process_chunk D st stereo = some st1
      ∧ st1.emitted = st.emitted ++ [chunk]
      ∧ chunk.channels = st.params.chanmap.length
      ∧ chunk.channel_config = st.chan_code
      ∧ chunk.sample_count = chunk_size
      ∧ chunk.data.length = st.params.chanmap.length * chunk_size
      ∧ (∀ c f, c < st.params.chanmap.length → f < chunk_size →
          f * st.params.chanmap.length
              + g_channel_index_from_flag st.chan_code (st.params.chanmap.getD c 0)
            < chunk.data.length
          ∧ f * st.params.chanmap.length + c
            < (D.decode
                (D.high_cutoff (D.low_cutoff st.decoder st.params.bass_lo st.srate)
                  st.params.bass_hi st.srate) stereo).2.length
          ∧ chunk.data[f * st.params.chanmap.length
              + g_channel_index_from_flag st.chan_code (st.params.chanmap.getD c 0)]?
            = (D.decode
                (D.high_cutoff (D.low_cutoff st.decoder st.params.bass_lo st.srate)
                  st.params.bass_hi st.srate) stereo).2[f * st.params.chanmap.length + c]?)
      ∧ ((∀ c f, c < st.params.chanmap.length → f < chunk_size →
            (D.decode
                (D.high_cutoff (D.low_cutoff st.decoder st.params.bass_lo st.srate)
                  st.params.bass_hi st.srate) stereo).2[f * st.params.chanmap.length + c]?
              = some (c + 1)) →
          ∀ c f, c < st.params.chanmap.length → f < chunk_size →
            chunk.data[f * st.params.chanmap.length
                + g_channel_index_from_flag st.chan_code (st.params.chanmap.getD c 0)]?
              = some (c + 1)))
    ∧ (∀ c, c < st.params.chanmap.length →
        g_channel_index_from_flag st.chan_code (st.params.chanmap.getD c 0)
          < st.params.chanmap.length)
    ∧ (∃ (r : freesurround_dsp δ × List Nat),
        process_chunk_traced D st stereo = some r
        ∧ r.2.Perm (List.range (st.params.chanmap.length * chunk_size))) := by
  obtain ⟨hle, hlt, hinj⟩ := slots_bijective st.params.chanmap hnd hflag
  have hcode2 : st.chan_code = st.params.chanmap.foldl (fun res x => res ||| x) 0 := hcode
  rw [← hcode2] at hlt hinj
  have hnum : st.params.chanmap.length * chunk_size ≤ 2 ^ 32 := by
    have h1 : st.params.chanmap.length * chunk_size ≤ 32 * chunk_size :=
      Nat.mul_le_mul_right _ hle
    have h2 : 32 * chunk_size ≤ 2 ^ 32 := by decide
    omega
  have hbij := remap_writes_bijective
    (fun j => (D.decode
      (D.high_cutoff (D.low_cutoff st.decoder st.params.bass_lo st.srate)
        st.params.bass_hi st.srate) stereo).2.getD j 0)
    st.params.chanmap.length
    (fun c => g_channel_index_from_flag st.chan_code (st.params.chanmap.getD c 0))
    hlt hinj hnum
    { dst := List.replicate (st.params.chanmap.length * chunk_size) 0, written := [] }
    (List.length_replicate _ _)
  obtain ⟨chunk, hpc, h1, h2, -, h4, h5, hd⟩ := process_chunk_defined D st stereo hlt hnum hsrc
  have hdata : ∀ c f, c < st.params.chanmap.length → f < chunk_size →
      f * st.params.chanmap.length
          + g_channel_index_from_flag st.chan_code (st.params.chanmap.getD c 0)
        < chunk.data.length
      ∧ f * st.params.chanmap.length + c
        < (D.decode
            (D.high_cutoff (D.low_cutoff st.decoder st.params.bass_lo st.srate)
              st.params.bass_hi st.srate) stereo).2.length
      ∧ chunk.data[f * st.params.chanmap.length
          + g_channel_index_from_flag st.chan_code (st.params.chanmap.getD c 0)]?
        = (D.decode
            (D.high_cutoff (D.low_cutoff st.decoder st.params.bass_lo st.srate)
              st.params.bass_hi st.srate) stereo).2[f * st.params.chanmap.length + c]? := by
    intro c f hc hf
    have hw1 := target_no_wrap st.params.chanmap.length _ f (hlt c hc) hf hnum
    have hw2 := target_no_wrap st.params.chanmap.length c f hc hf hnum
    have hin : f * st.params.chanmap.length + c
        < (D.decode
            (D.high_cutoff (D.low_cutoff st.decoder st.params.bass_lo st.srate)
              st.params.bass_hi st.srate) stereo).2.length := by
      have := hw2.2
      omega
    refine ⟨?_, hin, ?_⟩
    · rw [h5]
      have := hw1.2
      omega
    · rw [hd, getElem?_eq_some_getD _ _ hin]
      exact hbij.1 c f hc hf
  refine ⟨⟨_, chunk, hpc, rfl, h1, h2, h4, h5, hdata, ?_⟩, hlt, ?_⟩
  · intro hconst c f hc hf
    rw [(hdata c f hc hf).2.2, hconst c f hc hf]
  · refine ⟨_, process_chunk_traced_defined D st stereo hlt hnum hsrc, ?_⟩
    simp only
    rw [apply_writes_written, List.nil_append]
    exact hbij.2

/-- Witness for C6: the plugin instance with the default 5.1 parameters, whose table is
`[1, 4, 2, 16, 32, 8]` with channel code `63`, and a decoder of six channels. -/
theorem process_chunk_remaps_distinct_flags_witness :
    default_dsp.chan_code = channels_fb default_dsp.params
    ∧ default_dsp.params.chanmap = [1, 4, 2, 16, 32, 8]
    ∧ (∃ (r : freesurround_dsp Nat × List Nat),
        process_chunk_traced (constant_decoder 6) default_dsp [] = some r
        ∧ r.2.Perm (List.range (default_dsp.params.chanmap.length * chunk_size))) :=
  ⟨by decide, by decide,
   (process_chunk_remaps_distinct_flags (constant_decoder 6) default_dsp []
      (by decide) (by decide) (by decide)
      (Nat.le_of_eq (by rw [constant_decoder_block_length]; decide))).2.2⟩

end FreeSurround
